import Mathlib

/-!
Bosque caminante: the interaction core of `main3.js`.

A shallow embedding of the per-frame interaction code of `src/main3.js`
(height sampling, teleport arc, stick locomotion, tree streaming and pruning).

Numbers are modelled as exact rationals.  What the source obtains from the
three.js library or from the browser (the geometry of a mesh, `Math.sqrt`,
`Math.random`, controller poses) is taken as a parameter of the definitions.
-/

namespace BosqueCaminante

/-! ## Configuration constants (`main3.js` lines 14-18, 149) -/

def VR_WALK_SPEED : ℚ := 18 / 5
def VR_STRAFE_SPEED : ℚ := 3
def ARC_STEPS : Nat := 40
def ARC_SPEED : ℚ := 15 / 2
def ARC_GRAVITY : ℚ := 49 / 5
def pathWidth : ℚ := 10

/-! ## Vectors (`THREE.Vector3`) -/

structure Vector3 where
  x : ℚ
  y : ℚ
  z : ℚ
deriving DecidableEq

namespace Vector3

/-- The result of `a.add(b)`. -/
def add (a b : Vector3) : Vector3 := ⟨a.x + b.x, a.y + b.y, a.z + b.z⟩

/-- The result of `new Vector3().subVectors(a, b)`, that is `a - b`. -/
def subVectors (a b : Vector3) : Vector3 := ⟨a.x - b.x, a.y - b.y, a.z - b.z⟩

/-- The result of `v.multiplyScalar(s)`. -/
def multiplyScalar (v : Vector3) (s : ℚ) : Vector3 := ⟨v.x * s, v.y * s, v.z * s⟩

/-- The result of `v.addScaledVector(w, s)`, that is `v + w * s`. -/
def addScaledVector (v w : Vector3) (s : ℚ) : Vector3 :=
  ⟨v.x + w.x * s, v.y + w.y * s, v.z + w.z * s⟩

/-- The result of `new Vector3().crossVectors(a, b)`. -/
def crossVectors (a b : Vector3) : Vector3 :=
  ⟨a.y * b.z - a.z * b.y, a.z * b.x - a.x * b.z, a.x * b.y - a.y * b.x⟩

/-- The result of `v.length()`; `sqrt` stands for `Math.sqrt`. -/
def length (sqrt : ℚ → ℚ) (v : Vector3) : ℚ := sqrt (v.x * v.x + v.y * v.y + v.z * v.z)

/-- The result of `v.normalize()`: division by `v.length() || 1`. -/
def normalize (sqrt : ℚ → ℚ) (v : Vector3) : Vector3 :=
  let l := v.length sqrt
  v.multiplyScalar (1 / (if l = 0 then 1 else l))

end Vector3

/-! ## Ray casting (`THREE.Raycaster`) -/

/-- One entry of the list returned by `intersectObject(s)`.  Objects are identified by natural
numbers, in the order of their creation. -/
structure Intersection where
  distance : ℚ
  point : Vector3
  object : Nat
deriving DecidableEq

/-- The geometry of a mesh as the ray caster sees it: all the intersections of the
ray leaving `origin` along `direction` with the mesh, whatever their distance. -/
abbrev Mesh := Vector3 → Vector3 → List Intersection

/-- A `THREE.Raycaster`: its ray and its `near` and `far` limits.  `far = none` is the
`Infinity` a new ray caster starts with. -/
structure Raycaster where
  origin : Vector3
  direction : Vector3
  near : ℚ
  far : Option ℚ

namespace Raycaster

/-- The state of `new THREE.Raycaster()`. -/
def new : Raycaster := ⟨⟨0, 0, 0⟩, ⟨0, 0, -1⟩, 0, none⟩

/-- The method `set(origin, direction)`: it replaces the ray and nothing else. -/
def set (rc : Raycaster) (origin direction : Vector3) : Raycaster :=
  { rc with origin := origin, direction := direction }

/-- Whether an intersection at distance `d` is kept: `near <= d <= far`. -/
def inRange (rc : Raycaster) (d : ℚ) : Bool :=
  decide (rc.near ≤ d) && (match rc.far with
    | none => true
    | some f => decide (d ≤ f))

/-- The method `intersectObject(mesh, false)`: the intersections of the ray with the mesh whose
distance lies between `near` and `far`, by ascending distance. -/
def intersectObject (rc : Raycaster) (mesh : Mesh) : List Intersection :=
  ((mesh rc.origin rc.direction).filter (fun h => rc.inRange h.distance)).insertionSort
    (fun a b => a.distance ≤ b.distance)

end Raycaster

/-! ## Height sampling and segment test (`main3.js` lines 250-261, 460-471) -/

/-- The function `getTerrainHeight(x, z)`, run on the shared probe `_raycaster`: the height
returned and the probe afterwards. -/
def getTerrainHeight (path : Mesh) (rc : Raycaster) (x z : ℚ) : ℚ × Raycaster :=
  let rc1 := rc.set ⟨x, 100, z⟩ ⟨0, -1, 0⟩
  match rc1.intersectObject path with
  | h :: _ => (h.point.y, rc1)
  | [] => (0, rc1)

/-- The function `segmentIntersectTerrain(a, b)`, run on the shared probe `_raycaster`: the
point returned (`none` is `null`) and the probe afterwards. -/
def segmentIntersectTerrain (sqrt : ℚ → ℚ) (terrain : Mesh) (rc : Raycaster)
    (a b : Vector3) : Option Vector3 × Raycaster :=
  let dir := Vector3.subVectors b a
  let len := dir.length sqrt
  if len = 0 then (none, rc)
  else
    let rc1 := { rc.set a (dir.normalize sqrt) with far := some (len + 1 / 100) }
    ((rc1.intersectObject terrain).head?.map (fun h => h.point), rc1)

/-! ## Scene graph (`THREE.Object3D`) and program state -/

/-- The record `{ x, z, scale }` that `addRandomTree` stores in `tree.userData`. -/
structure UserData where
  x : ℚ
  z : ℚ
  scale : ℚ
deriving DecidableEq

/-- The fields of a `THREE.Object3D` that the core reads or writes.  `disposed` records that
`geometry.dispose()` and `material.dispose()` ran on a mesh; `userData = none` is the empty
record an object starts with. -/
structure Object3D where
  parent : Option Nat
  children : List Nat
  position : Vector3
  isMesh : Bool
  disposed : Bool
  userData : Option UserData
deriving DecidableEq

/-- The objects of the program, by identity. -/
abbrev Heap := Nat → Object3D

/-- The identity of the global `scene`. -/
def scene : Nat := 0

/-- The identity of the global group `world`, a child of `scene` (line 38). -/
def world : Nat := 1

namespace Heap

/-- A fresh `THREE.Group`. -/
def group : Object3D := ⟨none, [], ⟨0, 0, 0⟩, false, false, none⟩

/-- A fresh `THREE.Mesh`. -/
def mesh : Object3D := ⟨none, [], ⟨0, 0, 0⟩, true, false, none⟩

/-- Replace the object `id` by `f` of it. -/
def modify (h : Heap) (id : Nat) (f : Object3D → Object3D) : Heap :=
  Function.update h id (f (h id))

/-- The method `p.remove(c)` of three.js: when `c` is among the children of `p` its parent is
cleared and it leaves the list of children; otherwise nothing happens. -/
def remove (h : Heap) (p c : Nat) : Heap :=
  if c ∈ (h p).children then
    modify (modify h c (fun o => { o with parent := none })) p
      (fun o => { o with children := o.children.erase c })
  else h

/-- The method `p.add(c)` of three.js: `c` leaves its former parent, if any, and becomes the
last child of `p`. -/
def add (h : Heap) (p c : Nat) : Heap :=
  let h1 : Heap := match (h c).parent with
    | some q => remove h q c
    | none => h
  modify (modify h1 c (fun o => { o with parent := some p })) p
    (fun o => { o with children := o.children ++ [c] })

/-- The objects visited by `id.traverse(...)`, in order, down to depth `fuel`. -/
def traverse (h : Heap) : Nat → Nat → List Nat
  | 0, _ => []
  | fuel + 1, id => id :: (h id).children.flatMap (traverse h fuel)

end Heap

/-- The mutable globals of `main3.js` that the core uses.  `random` is the sequence of values
that `Math.random()` returns and `drawn` counts the calls made so far. -/
structure State where
  heap : Heap
  nextId : Nat
  trees : List Nat
  player : Vector3
  cameraPosition : Vector3
  _raycaster : Raycaster
  raycaster : Raycaster
  arcLineVisible : Bool
  teleportValid : Bool
  teleportPoint : Vector3
  _arcPoints : List ℚ
  leftPressing : Bool
  rightPressing : Bool
  random : Nat → ℚ
  drawn : Nat

namespace State

/-- One call of `Math.random()`. -/
def nextRandom (st : State) : ℚ × State :=
  (st.random st.drawn, { st with drawn := st.drawn + 1 })

/-- The globals as the top level of the script leaves them (lines 32-52, 181, 263-264, 339-340,
370-374, 399).  Of the scene graph only `scene` and `world` are listed: the other objects made
by the top level (lights, ocean, path, the test tree of line 270, icebergs, controllers) are
never in `trees`. -/
def init (random : Nat → ℚ) : State where
  heap := fun id =>
    if id = scene then { Heap.group with children := [world] }
    else if id = world then { Heap.group with parent := some scene }
    else Heap.group
  nextId := 2
  trees := []
  player := ⟨0, 8 / 5, 3⟩
  cameraPosition := ⟨0, 8 / 5, 10⟩
  _raycaster := Raycaster.new
  raycaster := Raycaster.new
  arcLineVisible := false
  teleportValid := false
  teleportPoint := ⟨0, 0, 0⟩
  _arcPoints := List.replicate (ARC_STEPS * 3) 0
  leftPressing := false
  rightPressing := false
  random := random
  drawn := 0

end State

/-! ## Trees on the path (`main3.js` lines 181-239) -/

/-- The function `addTree(x, z, scale)`: the identity of the new tree group and the state
afterwards.  The trunk, the group of crowns, the crowns and the tree are allocated in the order
the source creates them. -/
def addTree (path : Mesh) (st : State) (x z scale : ℚ) : Nat × State :=
  let trunk := st.nextId
  let crowns := st.nextId + 1
  let (r, st1) := st.nextRandom
  let levels := 3 + (Int.floor (r * 2)).toNat
  let h1 : Heap := Function.update (Function.update st1.heap trunk Heap.mesh) crowns Heap.group
  let h2 : Heap := (List.range levels).foldl (fun (h : Heap) i =>
    let crown := st.nextId + 2 + i
    Heap.add (Function.update h crown
      { Heap.mesh with position := ⟨0, (2 + (i : ℚ) * (7 / 10)) * scale, 0⟩ }) crowns crown) h1
  let tree := st.nextId + 2 + levels
  let h3 : Heap := Heap.add (Heap.add (Function.update h2 tree Heap.group) tree trunk) tree crowns
  let (y, rc) := getTerrainHeight path st1._raycaster x z
  let h4 : Heap := Heap.modify h3 tree (fun o => { o with position := ⟨x, y + 1 / 2, z⟩ })
  (tree, { st1 with heap := Heap.add h4 world tree, nextId := tree + 1, _raycaster := rc })

/-- The function `addRandomTree()`. -/
def addRandomTree (path : Mesh) (st : State) : State :=
  let (r1, st1) := st.nextRandom
  let randomX := r1 * pathWidth - pathWidth / 2
  let (r2, st2) := st1.nextRandom
  let randomZ := st2.player.z - 200 - r2 * 1000
  let (r3, st3) := st2.nextRandom
  let scale := 4 / 5 + r3 * (3 / 2)
  let (tree, st4) := addTree path st3 randomX randomZ scale
  { st4 with
    heap := Heap.modify st4.heap tree (fun o => { o with userData := some ⟨randomX, randomZ, scale⟩ })
    trees := st4.trees ++ [tree] }

/-- The body of the `forEach` callback of `moveTrees`, run on the tree `t`.  A tree without
`userData` never enters `trees` (`addRandomTree` assigns it before the push); the state is
returned as it is for one. -/
def moveTree (path : Mesh) (st : State) (t : Nat) : State :=
  match (st.heap t).userData with
  | none => st
  | some ud =>
    let z1 := ud.z + 3
    let (ud1, st1) :=
      if z1 > st.cameraPosition.z + 200 then
        let (r1, s1) := st.nextRandom
        let (r2, s2) := s1.nextRandom
        ((⟨r1 * pathWidth - pathWidth / 2, st.cameraPosition.z - 1000, 4 / 5 + r2 * (3 / 2)⟩
          : UserData), s2)
      else (({ ud with z := z1 } : UserData), st)
    let (y, rc) := getTerrainHeight path st1._raycaster ud1.x ud1.z
    { st1 with
      heap := Heap.modify st1.heap t (fun o =>
        { o with userData := some ud1, position := ⟨ud1.x, y + 1 / 2, ud1.z⟩ })
      _raycaster := rc }

/-- The function `moveTrees()`. -/
def moveTrees (path : Mesh) (st : State) : State :=
  st.trees.foldl (moveTree path) st

/-! ## Pruning (`main3.js` lines 476-517) -/

/-- The function `removeTree(tree)`. -/
def removeTree (st : State) (tree : Nat) : State :=
  let h1 : Heap := Heap.remove st.heap scene tree
  let h2 : Heap := (Heap.traverse h1 st.nextId tree).foldl (fun (h : Heap) c =>
    if (h c).isMesh then Heap.modify h c (fun o => { o with disposed := true }) else h) h1
  { st with heap := h2, trees := st.trees.erase tree }

/-- The loop `while (tree.parent && tree.parent !== scene) tree = tree.parent`, run for at
most `fuel` turns from `tree`; `none` when the turns run out. -/
def findRoot (h : Heap) : Nat → Nat → Option Nat
  | 0, _ => none
  | fuel + 1, tree =>
    match (h tree).parent with
    | none => some tree
    | some p => if p = scene then some tree else findRoot h fuel p

/-- The call `raycaster.intersectObjects(objs, true)`: every mesh among the objects and their
descendants is tested, `shape id` being the geometry of the mesh `id` in world space. -/
def intersectObjects (rc : Raycaster) (h : Heap) (fuel : Nat) (shape : Nat → Mesh)
    (objs : List Nat) : List Intersection :=
  ((((objs.flatMap (Heap.traverse h fuel)).filter (fun id => (h id).isMesh)).flatMap (fun id =>
    ((shape id rc.origin rc.direction).map (fun i => { i with object := id })))).filter
      (fun i => rc.inRange i.distance)).insertionSort (fun a b => a.distance ≤ b.distance)

/-- The pose and press state of a controller as `checkCollisionWithController` reads them:
`position`, the result of `getWorldDirection` and `isPressing`. -/
structure Controller where
  position : Vector3
  worldDirection : Vector3
  isPressing : Bool

/-- The function `checkCollisionWithController(controller)`. -/
def checkCollisionWithController (shape : Nat → Mesh) (st : State) (c : Controller) : State :=
  let rc := st.raycaster.set c.position c.worldDirection
  let st1 := { st with raycaster := rc }
  match intersectObjects rc st.heap st.nextId shape st.trees with
  | [] => st1
  | i :: _ =>
    match findRoot st.heap st.nextId i.object with
    | none => st1
    | some tree => if tree ∈ st.trees ∧ c.isPressing then removeTree st1 tree else st1

/-! ## Teleport (`main3.js` lines 373-386, 402-458) -/

/-- The `selectstart` listeners of the right controller (lines 350-352, 376-378). -/
def selectstartRight (st : State) : State :=
  { st with rightPressing := true, arcLineVisible := true }

/-- The `selectend` listeners of the right controller (lines 353-355, 379-386). -/
def selectendRight (path : Mesh) (st : State) : State :=
  let st1 := { st with rightPressing := false, arcLineVisible := false }
  if st1.teleportValid then
    let (h, rc) := getTerrainHeight path st1._raycaster st1.teleportPoint.x st1.teleportPoint.z
    { st1 with
      player := ⟨st1.teleportPoint.x, h + 8 / 5, st1.teleportPoint.z⟩
      _raycaster := rc }
  else st1

/-- The `selectstart` listener of the left controller (lines 343-345). -/
def selectstartLeft (st : State) : State := { st with leftPressing := true }

/-- The `selectend` listener of the left controller (lines 346-348). -/
def selectendLeft (st : State) : State := { st with leftPressing := false }

/-- What the integration loop of `updateTeleportArc` leaves behind: the local `points`, the
local `hitPoint` (`none` is `null`), the positions `p` reached after each sub-step run, and the
probe. -/
structure ArcTrace where
  points : List Vector3
  hitPoint : Option Vector3
  reached : List Vector3
  probe : Raycaster

/-- The loop `for (let i = 0; i < ARC_STEPS; i++)` of `updateTeleportArc` (lines 424-439) with
`n` turns left, `p` and `v` being the current position and velocity. -/
def arcLoop (sqrt : ℚ → ℚ) (terrain : Mesh) (origin : Vector3) :
    Nat → List Vector3 → List Vector3 → Vector3 → Vector3 → Raycaster → ArcTrace
  | 0, points, reached, _, _, rc => ⟨points, none, reached, rc⟩
  | n + 1, points, reached, p, v, rc =>
    let points1 := points ++ [p]
    let v1 := v.addScaledVector ⟨0, -ARC_GRAVITY, 0⟩ (1 / 60)
    let p1 := p.addScaledVector v1 (1 / 60)
    let src :=
      if 2 ≤ points1.length then points1.getD (points1.length - 2) origin else origin
    match segmentIntersectTerrain sqrt terrain rc src p1 with
    | (some hit, rc1) => ⟨points1, some hit, reached ++ [p1], rc1⟩
    | (none, rc1) => arcLoop sqrt terrain origin n points1 (reached ++ [p1]) p1 v1 rc1

/-- The integration of `updateTeleportArc` from `origin` along the unit direction `dir`. -/
def arcTrace (sqrt : ℚ → ℚ) (terrain : Mesh) (rc : Raycaster) (origin dir : Vector3) :
    ArcTrace :=
  arcLoop sqrt terrain origin ARC_STEPS [] [] origin (dir.multiplyScalar ARC_SPEED) rc

/-- The function `updateTeleportArc(dt)`.  `origin` is the world position of the right
controller and `dir` its forward direction after `normalize()`, both results of three.js calls.
The buffer `_arcPoints` is written from `points[Math.min(i, used - 1)]`, an index that is in
bounds since the loop runs at least once. -/
def updateTeleportArc (sqrt : ℚ → ℚ) (terrain : Mesh) (st : State) (origin dir : Vector3) :
    State :=
  if !st.arcLineVisible then st
  else
    let tr := arcTrace sqrt terrain st._raycaster origin dir
    let used := tr.points.length
    let buffer := (List.range ARC_STEPS).flatMap (fun i =>
      let P := tr.points.getD (min i (used - 1)) ⟨0, 0, 0⟩
      [P.x, P.y, P.z])
    { st with
      teleportValid := tr.hitPoint.isSome
      teleportPoint := tr.hitPoint.getD st.teleportPoint
      _arcPoints := buffer
      _raycaster := tr.probe }

/-! ## Stick locomotion (`main3.js` lines 520-553) -/

/-- An entry of `session.inputSources`: `gamepad = none` when the source has no gamepad,
otherwise the array `gamepad.axes`. -/
structure InputSource where
  gamepad : Option (List ℚ)

/-- The axis pair picked by lines 528-530: `axes[2], axes[3]` when both exist, otherwise
`axes[0] ?? 0, axes[1] ?? 0`. -/
def selectAxes (axes : List ℚ) : ℚ × ℚ :=
  match axes.get? 2, axes.get? 3 with
  | some x, some y => (x, y)
  | _, _ => ((axes.get? 0).getD 0, (axes.get? 1).getD 0)

/-- The dead zone of lines 532-534 on one axis. -/
def deadZone (a : ℚ) : ℚ := if |a| < 12 / 100 then 0 else a

/-- The body of the loop of `vrGamepadMove` for one input source.  `camDir` is the result of
`camera.getWorldDirection(forward)`. -/
def moveSource (sqrt : ℚ → ℚ) (path : Mesh) (camDir : Vector3) (dt : ℚ) (st : State)
    (src : InputSource) : State :=
  match src.gamepad with
  | none => st
  | some axes =>
    let x := deadZone (selectAxes axes).1
    let y := deadZone (selectAxes axes).2
    if x = 0 ∧ y = 0 then st
    else
      let forward := Vector3.normalize sqrt ⟨camDir.x, 0, camDir.z⟩
      let right := Vector3.normalize sqrt (Vector3.crossVectors forward ⟨0, 1, 0⟩)
      let move := ((⟨0, 0, 0⟩ : Vector3).addScaledVector forward
        (-y * VR_WALK_SPEED * dt)).addScaledVector right (x * VR_STRAFE_SPEED * dt)
      let next := st.player.add move
      let (h, rc) := getTerrainHeight path st._raycaster next.x next.z
      { st with player := ⟨next.x, h + 8 / 5, next.z⟩, _raycaster := rc }

/-- The function `vrGamepadMove(dt)`; `session = none` when `getSession()` is `null`. -/
def vrGamepadMove (sqrt : ℚ → ℚ) (path : Mesh) (camDir : Vector3) (dt : ℚ) (st : State)
    (session : Option (List InputSource)) : State :=
  match session with
  | none => st
  | some sources => sources.foldl (moveSource sqrt path camDir dt) st

/-! ## Frame loop and events (`main3.js` lines 242-248, 558-583) -/

/-- What one run of the animation loop reads from the browser and from three.js. -/
structure FrameInput where
  delta : ℚ
  isPresenting : Bool
  session : Option (List InputSource)
  cameraDirection : Vector3
  arcOrigin : Vector3
  arcDirection : Vector3
  leftPosition : Vector3
  leftDirection : Vector3
  rightPosition : Vector3
  rightDirection : Vector3
  terrain : Mesh
  shape : Nat → Mesh

/-- The callback of `renderer.setAnimationLoop` (lines 558-583), up to the render call. -/
def animationFrame (sqrt : ℚ → ℚ) (path : Mesh) (st : State) (inp : FrameInput) : State :=
  let dt := min inp.delta (5 / 100)
  let st1 :=
    if inp.isPresenting then
      let s1 := vrGamepadMove sqrt path inp.cameraDirection dt st inp.session
      let s2 := updateTeleportArc sqrt inp.terrain s1 inp.arcOrigin inp.arcDirection
      let s3 := checkCollisionWithController inp.shape s2
        ⟨inp.leftPosition, inp.leftDirection, s2.leftPressing⟩
      checkCollisionWithController inp.shape s3
        ⟨inp.rightPosition, inp.rightDirection, s3.rightPressing⟩
    else st
  let st2 := { st1 with
    cameraPosition := ⟨st1.player.x + 0, st1.player.y + 8 / 5, st1.player.z + 10⟩ }
  moveTrees path st2

/-- The events the program reacts to: controller presses, the spawn timer and a frame. -/
inductive Event where
  | selectstartLeft
  | selectendLeft
  | selectstartRight
  | selectendRight
  | spawn
  | frame (inp : FrameInput)

/-- The reaction of the program to one event. -/
def step (sqrt : ℚ → ℚ) (path : Mesh) (st : State) : Event → State
  | .selectstartLeft => selectstartLeft st
  | .selectendLeft => selectendLeft st
  | .selectstartRight => selectstartRight st
  | .selectendRight => selectendRight path st
  | .spawn => addRandomTree path st
  | .frame inp => animationFrame sqrt path st inp

/-- The state after a sequence of events. -/
def run (sqrt : ℚ → ℚ) (path : Mesh) (st : State) (evs : List Event) : State :=
  evs.foldl (step sqrt path) st

/-! ## Sample geometry and sample states -/

/-- A horizontal rectangle at height `h` with half-widths `hx` and `hz`, as a ray caster sees
it: the ray meets the plane `y = h` at the parameter `t = (h - o.y) / d.y`. -/
def flatMesh (h hx hz : ℚ) : Mesh := fun o d =>
  if d.y = 0 then []
  else
    let t := (h - o.y) / d.y
    let p : Vector3 := ⟨o.x + t * d.x, h, o.z + t * d.z⟩
    if 0 ≤ t ∧ |p.x| ≤ hx ∧ |p.z| ≤ hz then [⟨t, p, 0⟩] else []

/-- A flat stand-in for the ice path: 10 wide, 3000 long, at height 1.9. -/
def flatPath : Mesh := flatMesh (19 / 10) 5 1500

/-- The state after the spawn timer fired once from the initial state, every `Math.random()`
returning 0: the tree is the object 7, at `x = -5`, `z = -197`, with the trunk 2. -/
def oneTree : State := addRandomTree flatPath (State.init (fun _ => 0))

/-- The state `oneTree` once the player stands at `z = -410`, the camera following at
`z = -400`. -/
def oneTreeFarCamera : State :=
  { oneTree with player := ⟨0, 8 / 5, -410⟩, cameraPosition := ⟨0, 16 / 5, -400⟩ }

/-- A rational stand-in for `Math.sqrt`: the integer square root of `num * den` over `den`,
which is the exact root on squares of rationals and a lower approximation elsewhere. -/
def ratSqrt (q : ℚ) : ℚ := (Nat.sqrt (q.num.toNat * q.den) : ℚ) / q.den

/-- A sample geometry of the objects of `oneTree`: the trunk 2 is met by a ray at the height 3
and the crowns are missed. -/
def trunkOnly : Nat → Mesh := fun id => if id = 2 then flatMesh 3 10 1500 else fun _ _ => []

/-- A frame in which the right controller, held at `(0, 1/10, 0)` over an ocean that is flat at
height 0, points straight down; no gamepad is read and no tree geometry is met. -/
def aimFrame : FrameInput where
  delta := 1 / 60
  isPresenting := true
  session := none
  cameraDirection := ⟨0, 0, -1⟩
  arcOrigin := ⟨0, 1 / 10, 0⟩
  arcDirection := ⟨0, -1, 0⟩
  leftPosition := ⟨-1 / 5, 1, 0⟩
  leftDirection := ⟨0, 0, -1⟩
  rightPosition := ⟨0, 1 / 10, 0⟩
  rightDirection := ⟨0, 0, -1⟩
  terrain := flatMesh 0 130 130
  shape := fun _ _ _ => []

/-- A frame like `aimFrame` in which the stick of one gamepad is pushed fully forward. -/
def walkFrame : FrameInput :=
  { aimFrame with delta := 1 / 10, session := some [⟨some [0, 0, 0, -1]⟩] }

/-- One call `segmentIntersectTerrain(a, b)` of the loop of `updateTeleportArc`: its two
arguments and the value returned (`none` is `null`). -/
structure SegmentCall where
  a : Vector3
  b : Vector3
  hit : Option Vector3

/-- The calls of `segmentIntersectTerrain` that the loop of `updateTeleportArc` (lines 424-439)
makes with `n` turns left, in order: the loop of `arcLoop`, each call `(from, to)` recorded with
the value it returns. -/
def arcCalls (sqrt : ℚ → ℚ) (terrain : Mesh) (origin : Vector3) :
    Nat → List Vector3 → Vector3 → Vector3 → Raycaster → List SegmentCall
  | 0, _, _, _, _ => []
  | n + 1, points, p, v, rc =>
    let points1 := points ++ [p]
    let v1 := v.addScaledVector ⟨0, -ARC_GRAVITY, 0⟩ (1 / 60)
    let p1 := p.addScaledVector v1 (1 / 60)
    let src :=
      if 2 ≤ points1.length then points1.getD (points1.length - 2) origin else origin
    match segmentIntersectTerrain sqrt terrain rc src p1 with
    | (some hit, _) => [⟨src, p1, some hit⟩]
    | (none, rc1) => ⟨src, p1, none⟩ :: arcCalls sqrt terrain origin n points1 p1 v1 rc1

/-- The point held by slot `i` of the buffer `_arcPoints`, three numbers to a point as the
loop of lines 443-449 writes them. -/
def arcSlot (buffer : List ℚ) (i : Nat) : Vector3 :=
  ⟨buffer.getD (i * 3 + 0) 0, buffer.getD (i * 3 + 1) 0, buffer.getD (i * 3 + 2) 0⟩

/-! ## Predicates used in the statements -/

/-- The objects below `n` have in `h1` the parent, user data and position they have in `h`, and
those other than `world` have no child in `h1` that they do not have in `h`. -/
def Heap.Preserved (n : Nat) (h h1 : Heap) : Prop :=
  ∀ u, u < n →
    (h1 u).parent = (h u).parent ∧ (h1 u).userData = (h u).userData ∧
      (h1 u).position = (h u).position ∧ (u ≠ world → (h1 u).children ⊆ (h u).children)

/-- The collection has pairwise distinct entries, each an existing object with user data. -/
def WellFormed (st : State) : Prop :=
  st.trees.Nodup ∧ ∀ t ∈ st.trees, t < st.nextId ∧ ∃ ud, (st.heap t).userData = some ud

/-- Every tree of the collection is rendered at
`(userData.x, getTerrainHeight(userData.x, userData.z) + 0.5, userData.z)`. -/
def Grounded (path : Mesh) (st : State) : Prop :=
  ∀ t ∈ st.trees, ∃ ud, (st.heap t).userData = some ud ∧
    (st.heap t).position =
      ⟨ud.x, (getTerrainHeight path st._raycaster ud.x ud.z).1 + 1 / 2, ud.z⟩

/-! ## Facts about the height probe -/

theorem getTerrainHeight_snd (path : Mesh) (rc : Raycaster) (x z : ℚ) :
    (getTerrainHeight path rc x z).2 = rc.set ⟨x, 100, z⟩ ⟨0, -1, 0⟩ := by
  unfold getTerrainHeight
  dsimp only
  split <;> rfl

theorem getTerrainHeight_fst_congr (path : Mesh) (rc rc1 : Raycaster) (x z : ℚ)
    (hn : rc.near = rc1.near) (hf : rc.far = rc1.far) :
    (getTerrainHeight path rc x z).1 = (getTerrainHeight path rc1 x z).1 := by
  have h : rc.set ⟨x, 100, z⟩ ⟨0, -1, 0⟩ = rc1.set ⟨x, 100, z⟩ ⟨0, -1, 0⟩ := by
    cases rc; cases rc1; simp_all [Raycaster.set]
  unfold getTerrainHeight
  simp only [h]

theorem getTerrainHeight_snd_near (path : Mesh) (rc : Raycaster) (x z : ℚ) :
    (getTerrainHeight path rc x z).2.near = rc.near := by
  rw [getTerrainHeight_snd]; rfl

theorem getTerrainHeight_snd_far (path : Mesh) (rc : Raycaster) (x z : ℚ) :
    (getTerrainHeight path rc x z).2.far = rc.far := by
  rw [getTerrainHeight_snd]; rfl

/-! ## Teleport confirmation -/

/-- C1: on `selectend` of the right controller the player becomes
`(teleportPoint.x, getTerrainHeight(teleportPoint.x, teleportPoint.z) + 1.6, teleportPoint.z)`
when `teleportValid` holds and keeps its three coordinates otherwise; the arc is hidden in both
cases, and the result does not depend on `teleportPoint.y`. -/
theorem selectendRight_player (path : Mesh) (st : State) :
    (selectendRight path st).player =
        (if st.teleportValid then
          ⟨st.teleportPoint.x,
            (getTerrainHeight path st._raycaster st.teleportPoint.x st.teleportPoint.z).1 + 8 / 5,
            st.teleportPoint.z⟩
        else st.player) ∧
      (selectendRight path st).arcLineVisible = false ∧
      ∀ y : ℚ, (selectendRight path
          { st with teleportPoint := ⟨st.teleportPoint.x, y, st.teleportPoint.z⟩ }).player =
        (selectendRight path st).player := by
  refine ⟨?_, ?_, ?_⟩
  · unfold selectendRight
    cases h : st.teleportValid <;> simp [h]
  · unfold selectendRight
    cases h : st.teleportValid <;> simp [h]
  · intro y
    unfold selectendRight
    cases h : st.teleportValid <;> simp [h]


/-! ## Facts about `moveTrees` -/

theorem moveTree_shape (path : Mesh) (st : State) (t : Nat) :
    ∃ h rc d, moveTree path st t = { st with heap := h, _raycaster := rc, drawn := d } ∧
      rc.near = st._raycaster.near ∧ rc.far = st._raycaster.far := by
  unfold moveTree
  cases h : (st.heap t).userData with
  | none => exact ⟨st.heap, st._raycaster, st.drawn, rfl, rfl, rfl⟩
  | some ud =>
    simp only [State.nextRandom]
    split_ifs
    · exact ⟨_, _, _, rfl, getTerrainHeight_snd_near _ _ _ _, getTerrainHeight_snd_far _ _ _ _⟩
    · exact ⟨_, _, _, rfl, getTerrainHeight_snd_near _ _ _ _, getTerrainHeight_snd_far _ _ _ _⟩

theorem moveTree_heap_of_ne (path : Mesh) (st : State) (t u : Nat) (h : u ≠ t) :
    (moveTree path st t).heap u = st.heap u := by
  unfold moveTree
  cases hu : (st.heap t).userData with
  | none => rfl
  | some ud =>
    simp only [State.nextRandom]
    split_ifs <;> simp [Heap.modify, Function.update_apply, h]

theorem moveTree_heap_self (path : Mesh) (st : State) (t : Nat) (ud : UserData)
    (h : (st.heap t).userData = some ud) :
    ∃ ud1 : UserData,
      (moveTree path st t).heap t =
        { st.heap t with
          userData := some ud1
          position := ⟨ud1.x, (getTerrainHeight path st._raycaster ud1.x ud1.z).1 + 1 / 2,
            ud1.z⟩ } ∧
      ((st.cameraPosition.z + 200 < ud.z + 3 ∧
          ud1 = ⟨st.random st.drawn * pathWidth - pathWidth / 2, st.cameraPosition.z - 1000,
            4 / 5 + st.random (st.drawn + 1) * (3 / 2)⟩) ∨
        (¬ st.cameraPosition.z + 200 < ud.z + 3 ∧ ud1 = ⟨ud.x, ud.z + 3, ud.scale⟩)) := by
  unfold moveTree
  simp only [h, State.nextRandom]
  by_cases hc : st.cameraPosition.z + 200 < ud.z + 3
  · refine ⟨⟨st.random st.drawn * pathWidth - pathWidth / 2, st.cameraPosition.z - 1000,
      4 / 5 + st.random (st.drawn + 1) * (3 / 2)⟩, ?_, Or.inl ⟨hc, rfl⟩⟩
    simp [hc, Heap.modify]
  · refine ⟨⟨ud.x, ud.z + 3, ud.scale⟩, ?_, Or.inr ⟨hc, rfl⟩⟩
    simp [hc, Heap.modify]

theorem foldl_moveTree_shape (path : Mesh) (l : List Nat) :
    ∀ st : State, ∃ h rc d,
      l.foldl (moveTree path) st = { st with heap := h, _raycaster := rc, drawn := d } ∧
      rc.near = st._raycaster.near ∧ rc.far = st._raycaster.far := by
  induction l with
  | nil => intro st; exact ⟨st.heap, st._raycaster, st.drawn, rfl, rfl, rfl⟩
  | cons t l ih =>
    intro st
    obtain ⟨h1, rc1, d1, e1, n1, f1⟩ := moveTree_shape path st t
    obtain ⟨h2, rc2, d2, e2, n2, f2⟩ := ih (moveTree path st t)
    refine ⟨h2, rc2, d2, ?_, ?_, ?_⟩
    · rw [List.foldl_cons, e2, e1]
    · rw [n2, e1]; exact n1
    · rw [f2, e1]; exact f1

theorem foldl_moveTree_heap_of_not_mem (path : Mesh) (u : Nat) (l : List Nat) :
    ∀ st : State, u ∉ l → (l.foldl (moveTree path) st).heap u = st.heap u := by
  induction l with
  | nil => intro st _; rfl
  | cons t l ih =>
    intro st hu
    rw [List.foldl_cons, ih _ (fun hm => hu (List.mem_cons_of_mem _ hm))]
    exact moveTree_heap_of_ne path st t u (fun e => hu (e ▸ List.mem_cons_self _ _))

theorem moveTrees_heap_mem (path : Mesh) (st : State) (t : Nat) (ud : UserData)
    (hnd : st.trees.Nodup) (ht : t ∈ st.trees) (hud : (st.heap t).userData = some ud) :
    ∃ (ud1 : UserData) (d : Nat),
      (moveTrees path st).heap t =
        { st.heap t with
          userData := some ud1
          position := ⟨ud1.x, (getTerrainHeight path st._raycaster ud1.x ud1.z).1 + 1 / 2,
            ud1.z⟩ } ∧
      ((st.cameraPosition.z + 200 < ud.z + 3 ∧
          ud1 = ⟨st.random d * pathWidth - pathWidth / 2, st.cameraPosition.z - 1000,
            4 / 5 + st.random (d + 1) * (3 / 2)⟩) ∨
        (¬ st.cameraPosition.z + 200 < ud.z + 3 ∧ ud1 = ⟨ud.x, ud.z + 3, ud.scale⟩)) := by
  obtain ⟨a, b, hab⟩ := List.append_of_mem ht
  have hnd1 : (a ++ t :: b).Nodup := hab ▸ hnd
  have hta : t ∉ a := fun hm => (List.nodup_append.1 hnd1).2.2 hm (List.mem_cons_self _ _)
  have htb : t ∉ b := (List.nodup_cons.1 (List.nodup_append.1 hnd1).2.1).1
  obtain ⟨h1, rc1, d1, e1, n1, f1⟩ := foldl_moveTree_shape path a st
  have hheap : (a.foldl (moveTree path) st).heap t = st.heap t :=
    foldl_moveTree_heap_of_not_mem path t a st hta
  obtain ⟨ud1, hself, hcase⟩ := moveTree_heap_self path (a.foldl (moveTree path) st) t ud
    (by rw [hheap]; exact hud)
  refine ⟨ud1, (a.foldl (moveTree path) st).drawn, ?_, ?_⟩
  · unfold moveTrees
    rw [hab, List.foldl_append, List.foldl_cons,
      foldl_moveTree_heap_of_not_mem path t b _ htb, hself, hheap]
    rw [getTerrainHeight_fst_congr path (a.foldl (moveTree path) st)._raycaster st._raycaster]
    · rw [e1]; exact n1
    · rw [e1]; exact f1
  · rw [e1] at hcase
    rw [e1]
    exact hcase


/-! ## The sample state `oneTree` -/

theorem oneTree_trees : oneTree.trees = [7] := by
  simp [oneTree, addRandomTree, addTree, State.init, State.nextRandom]

theorem oneTree_userData : (oneTree.heap 7).userData = some ⟨-5, -197, 4 / 5⟩ := by
  simp [oneTree, addRandomTree, addTree, State.init, State.nextRandom, Heap.modify, pathWidth]
  norm_num

/-! ## Recycling -/

/-- C6 (amended): with pairwise distinct trees and every `Math.random()` value in `[0, 1)`, a
tree whose depth after the `+3` advance exceeds `camera.position.z + 200` ends the `moveTrees`
pass with depth exactly `camera.position.z - 1000` (not strictly below it), lateral offset in
`[-pathWidth/2, pathWidth/2]` and scale in `[0.8, 2.3]`; any other tree keeps its lateral offset
and scale and has depth exactly 3 larger. -/
theorem moveTrees_recycle (path : Mesh) (st : State) (t : Nat) (ud : UserData)
    (hnd : st.trees.Nodup) (ht : t ∈ st.trees) (hud : (st.heap t).userData = some ud)
    (hr : ∀ i, 0 ≤ st.random i ∧ st.random i < 1) :
    ∃ ud1 : UserData, ((moveTrees path st).heap t).userData = some ud1 ∧
      (st.cameraPosition.z + 200 < ud.z + 3 →
        ud1.z = st.cameraPosition.z - 1000 ∧ -(pathWidth / 2) ≤ ud1.x ∧ ud1.x ≤ pathWidth / 2 ∧
          4 / 5 ≤ ud1.scale ∧ ud1.scale ≤ 23 / 10) ∧
      (¬ st.cameraPosition.z + 200 < ud.z + 3 →
        ud1.x = ud.x ∧ ud1.scale = ud.scale ∧ ud1.z = ud.z + 3) := by
  obtain ⟨ud1, d, hheap, hcase⟩ := moveTrees_heap_mem path st t ud hnd ht hud
  refine ⟨ud1, by rw [hheap], ?_, ?_⟩
  · intro hc
    rcases hcase with ⟨_, rfl⟩ | ⟨hn, _⟩
    · have h1 := hr d
      have h2 := hr (d + 1)
      refine ⟨rfl, ?_, ?_, ?_, ?_⟩ <;> simp only [pathWidth] <;>
        linarith [h1.1, h1.2, h2.1, h2.2]
    · exact absurd hc hn
  · intro hc
    rcases hcase with ⟨hy, _⟩ | ⟨_, rfl⟩
    · exact absurd hy hc
    · exact ⟨rfl, rfl, rfl⟩

/-- C6 (witness): the amended statement at the tree of `oneTreeFarCamera`. -/
theorem moveTrees_recycle_witness :
    ∃ ud1 : UserData, ((moveTrees flatPath oneTreeFarCamera).heap 7).userData = some ud1 ∧
      ud1.z = -1400 ∧ -5 ≤ ud1.x ∧ ud1.x ≤ 5 ∧ 4 / 5 ≤ ud1.scale ∧ ud1.scale ≤ 23 / 10 := by
  obtain ⟨ud1, h, hrec, _⟩ := moveTrees_recycle flatPath oneTreeFarCamera 7 ⟨-5, -197, 4 / 5⟩
    (by show oneTree.trees.Nodup; rw [oneTree_trees]; simp)
    (by show 7 ∈ oneTree.trees; rw [oneTree_trees]; simp)
    (by show (oneTree.heap 7).userData = _; exact oneTree_userData)
    (by intro i; show 0 ≤ oneTree.random i ∧ oneTree.random i < 1
        simp [oneTree, addRandomTree, addTree, State.init, State.nextRandom])
  have hc : oneTreeFarCamera.cameraPosition.z = -400 := rfl
  obtain ⟨r1, r2, r3, r4, r5⟩ := hrec (by rw [hc]; norm_num)
  rw [hc] at r1
  simp only [pathWidth] at r2 r3
  exact ⟨ud1, h, by rw [r1]; norm_num, by linarith, by linarith, r4, r5⟩

/-- C6 (counterexample): the tree of `oneTreeFarCamera` has depth `-197`, which after the
advance exceeds the camera depth `-400` plus 200, and it ends the pass at depth
`camera.position.z - 1000`, which is not strictly less than `camera.position.z - 1000`. -/
theorem recycled_depth_not_strict :
    7 ∈ oneTreeFarCamera.trees ∧
      (oneTreeFarCamera.heap 7).userData = some ⟨-5, -197, 4 / 5⟩ ∧
      oneTreeFarCamera.cameraPosition.z + 200 < -197 + 3 ∧
      ∃ ud1 : UserData, ((moveTrees flatPath oneTreeFarCamera).heap 7).userData = some ud1 ∧
        ¬ ud1.z < oneTreeFarCamera.cameraPosition.z - 1000 := by
  have ht : oneTreeFarCamera.trees = [7] := oneTree_trees
  have hu : (oneTreeFarCamera.heap 7).userData = some ⟨-5, -197, 4 / 5⟩ := oneTree_userData
  have hc : oneTreeFarCamera.cameraPosition.z = -400 := rfl
  refine ⟨by rw [ht]; simp, hu, by rw [hc]; norm_num, ?_⟩
  obtain ⟨ud1, d, hheap, hcase⟩ := moveTrees_heap_mem flatPath oneTreeFarCamera 7 _
    (by rw [ht]; simp) (by rw [ht]; simp) hu
  refine ⟨ud1, by rw [hheap], ?_⟩
  rcases hcase with ⟨_, rfl⟩ | ⟨hn, _⟩
  · simp
  · exact absurd (by rw [hc]; norm_num) hn


/-! ## Removal from the collection -/

theorem moveTrees_trees (path : Mesh) (st : State) : (moveTrees path st).trees = st.trees := by
  obtain ⟨h, rc, d, e, _, _⟩ := foldl_moveTree_shape path st.trees st
  unfold moveTrees
  rw [e]

theorem iterate_moveTrees_trees (path : Mesh) (n : Nat) :
    ∀ st : State, ((moveTrees path)^[n] st).trees = st.trees := by
  induction n with
  | zero => intro st; rfl
  | succ n ih => intro st; rw [Function.iterate_succ_apply, ih, moveTrees_trees]

theorem iterate_moveTrees_heap_of_not_mem (path : Mesh) (u : Nat) (n : Nat) :
    ∀ st : State, u ∉ st.trees → ((moveTrees path)^[n] st).heap u = st.heap u := by
  induction n with
  | zero => intro st _; rfl
  | succ n ih =>
    intro st hu
    rw [Function.iterate_succ_apply, ih _ (by rw [moveTrees_trees]; exact hu)]
    exact foldl_moveTree_heap_of_not_mem path u st.trees st hu

/-- C8: with pairwise distinct entries, `removeTree(T)` on a member `T` leaves the collection
with exactly the entry `T` filtered out (one element fewer, `T` no longer a member, the other
entries in their order), on a non-member it leaves the collection as it is, and no number of
later `moveTrees` passes brings `T` back into the collection or changes the object `T`. -/
theorem removeTree_collection (st : State) (T : Nat) (hnd : st.trees.Nodup) :
    (T ∈ st.trees →
        (removeTree st T).trees = st.trees.filter (fun t => t != T) ∧
        (removeTree st T).trees.length + 1 = st.trees.length ∧
        T ∉ (removeTree st T).trees) ∧
      (T ∉ st.trees → (removeTree st T).trees = st.trees) ∧
      ∀ (path : Mesh) (n : Nat),
        T ∉ ((moveTrees path)^[n] (removeTree st T)).trees ∧
        ((moveTrees path)^[n] (removeTree st T)).heap T = (removeTree st T).heap T := by
  have he : (removeTree st T).trees = st.trees.erase T := rfl
  have hnot : T ∉ (removeTree st T).trees := by
    rw [he]; exact fun hm => (List.Nodup.mem_erase_iff hnd).1 hm |>.1 rfl
  refine ⟨fun hT => ⟨?_, ?_, hnot⟩, fun hT => ?_, fun path n => ⟨?_, ?_⟩⟩
  · rw [he, List.Nodup.erase_eq_filter hnd]
  · rw [he, List.length_erase_of_mem hT]
    have : 0 < st.trees.length := List.length_pos_of_mem hT
    omega
  · rw [he, List.erase_of_not_mem hT]
  · rw [iterate_moveTrees_trees]; exact hnot
  · exact iterate_moveTrees_heap_of_not_mem path T n _ hnot

/-- C8 (witness): the statement at the tree of `oneTree`. -/
theorem removeTree_collection_witness :
    (7 ∈ oneTree.trees →
        (removeTree oneTree 7).trees = oneTree.trees.filter (fun t => t != 7) ∧
        (removeTree oneTree 7).trees.length + 1 = oneTree.trees.length ∧
        7 ∉ (removeTree oneTree 7).trees) ∧
      (7 ∉ oneTree.trees → (removeTree oneTree 7).trees = oneTree.trees) ∧
      ∀ (path : Mesh) (n : Nat),
        7 ∉ ((moveTrees path)^[n] (removeTree oneTree 7)).trees ∧
        ((moveTrees path)^[n] (removeTree oneTree 7)).heap 7 = (removeTree oneTree 7).heap 7 :=
  removeTree_collection oneTree 7 (by rw [oneTree_trees]; simp)

/-! ## Stick locomotion -/

/-- C7: with a single gamepad source, `a` and `b` being the selected axes after the dead zone
of 0.12, `vrGamepadMove` leaves the player as it is when both are zero, and otherwise moves it to
`(p.x + m.x, getTerrainHeight(p.x + m.x, p.z + m.z) + 1.6, p.z + m.z)` with
`m = f * (-b) * 3.6 * dt + r * a * 3.0 * dt`, `f` the flattened normalised camera direction and
`r = normalize(f × (0, 1, 0))`. -/
theorem vrGamepadMove_single (sqrt : ℚ → ℚ) (path : Mesh) (camDir : Vector3) (dt : ℚ)
    (st : State) (axes : List ℚ) :
    let x := (selectAxes axes).1
    let y := (selectAxes axes).2
    let a := if 12 / 100 ≤ |x| then x else 0
    let b := if 12 / 100 ≤ |y| then y else 0
    let f := Vector3.normalize sqrt ⟨camDir.x, 0, camDir.z⟩
    let r := Vector3.normalize sqrt (Vector3.crossVectors f ⟨0, 1, 0⟩)
    let mx := f.x * (-b) * VR_WALK_SPEED * dt + r.x * a * VR_STRAFE_SPEED * dt
    let mz := f.z * (-b) * VR_WALK_SPEED * dt + r.z * a * VR_STRAFE_SPEED * dt
    (vrGamepadMove sqrt path camDir dt st (some [⟨some axes⟩])).player =
      if a = 0 ∧ b = 0 then st.player
      else ⟨st.player.x + mx,
        (getTerrainHeight path st._raycaster (st.player.x + mx) (st.player.z + mz)).1 + 8 / 5,
        st.player.z + mz⟩ := by
  intro x y a b f r mx mz
  have ha : deadZone x = a := by
    simp only [deadZone, a]
    by_cases h : |x| < 12 / 100
    · rw [if_pos h, if_neg (not_le.2 h)]
    · rw [if_neg h, if_pos (not_lt.1 h)]
  have hb : deadZone y = b := by
    simp only [deadZone, b]
    by_cases h : |y| < 12 / 100
    · rw [if_pos h, if_neg (not_le.2 h)]
    · rw [if_neg h, if_pos (not_lt.1 h)]
  have hx : st.player.x + (0 + f.x * (-b * VR_WALK_SPEED * dt) + r.x * (a * VR_STRAFE_SPEED * dt)) =
      st.player.x + mx := by simp only [mx]; ring
  have hz : st.player.z + (0 + f.z * (-b * VR_WALK_SPEED * dt) + r.z * (a * VR_STRAFE_SPEED * dt)) =
      st.player.z + mz := by simp only [mz]; ring
  simp only [vrGamepadMove, List.foldl_cons, List.foldl_nil, moveSource]
  change (if deadZone x = 0 ∧ deadZone y = 0 then st else _).player = _
  rw [ha, hb]
  by_cases h0 : a = 0 ∧ b = 0
  · rw [if_pos h0, if_pos h0]
  · rw [if_neg h0, if_neg h0]
    simp only [Vector3.add, Vector3.addScaledVector]
    change (⟨st.player.x + (0 + f.x * (-b * VR_WALK_SPEED * dt) + r.x * (a * VR_STRAFE_SPEED * dt)),
      _, st.player.z + (0 + f.z * (-b * VR_WALK_SPEED * dt) + r.z * (a * VR_STRAFE_SPEED * dt))⟩
        : Vector3) = _
    rw [hx, hz]


/-! ## The shared probe -/

theorem ratSqrt_nonneg (q : ℚ) : 0 ≤ ratSqrt q := by
  unfold ratSqrt
  positivity

theorem ratSqrt_mul_self (q : ℚ) : ratSqrt (q * q) = |q| := by
  unfold ratSqrt
  rw [Rat.mul_self_num, Rat.mul_self_den]
  have h1 : (q.num * q.num).toNat = q.num.natAbs * q.num.natAbs := by
    rw [← Int.natAbs_mul_self (a := q.num), Int.toNat_natCast]
  have h2 : q.num.natAbs * q.num.natAbs * (q.den * q.den) =
      (q.num.natAbs * q.den) * (q.num.natAbs * q.den) := by ring
  rw [h1, h2, Nat.sqrt_eq, Rat.abs_def, Rat.divInt_eq_div]
  have hd : (q.den : ℚ) ≠ 0 := by exact_mod_cast q.den_nz
  have h3 : ((q.num.natAbs : ℕ) : ℚ) = |(q.num : ℚ)| := by
    rw [Nat.cast_natAbs, Int.cast_abs]
  push_cast
  field_simp
  rw [h3]
  ring

theorem ratSqrt_one_sixtyfourth : ratSqrt (1 / 64) = 1 / 8 := by
  have h1 : ((1 : ℚ) / 64).num = 1 := by norm_num
  have h2 : ((1 : ℚ) / 64).den = 64 := by norm_num
  have h3 : Nat.sqrt 64 = 8 := by norm_num [Nat.sqrt]
  simp only [ratSqrt, h1, h2]
  norm_num [h3]

/-- C3 (code at the failing input): on a probe with `near = 0` and `far = Infinity`,
`getTerrainHeight(x, z)` returns the elevation of the intersection `i` of the downward ray from
`(x, 100, z)` with the path; once `segmentIntersectTerrain(a, b)` has run on a segment of
non-zero length with `length + 0.01` below the distance of `i`, the same call returns the
default 0, the path being the same. -/
theorem getTerrainHeight_stale_far (sqrt : ℚ → ℚ) (terrain path : Mesh) (rc : Raycaster)
    (a b : Vector3) (x z : ℚ) (i : Intersection)
    (hnear : rc.near = 0) (hfar : rc.far = none)
    (hpath : path ⟨x, 100, z⟩ ⟨0, -1, 0⟩ = [i]) (hi : 0 ≤ i.distance)
    (hlen : (Vector3.subVectors b a).length sqrt ≠ 0)
    (hshort : (Vector3.subVectors b a).length sqrt + 1 / 100 < i.distance) :
    (getTerrainHeight path rc x z).1 = i.point.y ∧
      (getTerrainHeight path (segmentIntersectTerrain sqrt terrain rc a b).2 x z).1 = 0 := by
  constructor
  · simp [getTerrainHeight, Raycaster.intersectObject, Raycaster.set, Raycaster.inRange, hpath,
      hnear, hfar, hi]
  · have hs : ¬ i.distance ≤ (Vector3.subVectors b a).length sqrt + 100⁻¹ := by
      rw [← one_div]; exact not_le.2 hshort
    simp [getTerrainHeight, segmentIntersectTerrain, Raycaster.intersectObject, Raycaster.set,
      Raycaster.inRange, hpath, hlen, hs]

/-- C3 (witness): on the flat path at height 1.9 the fresh probe returns 1.9 at `(0, 0)`, and 0
after the segment from `(0, 2, 0)` to `(0, 2, -1/8)` has been tested. -/
theorem getTerrainHeight_stale_far_witness :
    (getTerrainHeight flatPath Raycaster.new 0 0).1 = 19 / 10 ∧
      (getTerrainHeight flatPath (segmentIntersectTerrain ratSqrt (flatMesh 0 130 130)
        Raycaster.new ⟨0, 2, 0⟩ ⟨0, 2, -1 / 8⟩).2 0 0).1 = 0 := by
  have hl : (Vector3.subVectors ⟨0, 2, -1 / 8⟩ ⟨0, 2, 0⟩).length ratSqrt = 1 / 8 := by
    have : (0 - 0 : ℚ) * (0 - 0) + (2 - 2) * (2 - 2) + (-1 / 8 - 0) * (-1 / 8 - 0) = 1 / 64 := by
      norm_num
    simp only [Vector3.length, Vector3.subVectors, this, ratSqrt_one_sixtyfourth]
  exact getTerrainHeight_stale_far ratSqrt (flatMesh 0 130 130) flatPath Raycaster.new
    ⟨0, 2, 0⟩ ⟨0, 2, -1 / 8⟩ 0 0 ⟨981 / 10, ⟨0, 19 / 10, 0⟩, 0⟩ rfl rfl
    (by norm_num [flatPath, flatMesh]) (by norm_num) (by rw [hl]; norm_num)
    (by rw [hl]; norm_num)


/-! ## The arc aimed straight up -/

theorem intersectObject_mem (rc : Raycaster) (mesh : Mesh) (i : Intersection)
    (h : i ∈ rc.intersectObject mesh) : i ∈ mesh rc.origin rc.direction := by
  unfold Raycaster.intersectObject at h
  exact List.mem_of_mem_filter ((List.perm_insertionSort _ _).mem_iff.1 h)

theorem flatMesh_mem (h hx hz : ℚ) (o d : Vector3) (i : Intersection)
    (hi : i ∈ flatMesh h hx hz o d) :
    0 ≤ i.distance ∧ i.point = o.addScaledVector d i.distance ∧ i.point.y = h := by
  unfold flatMesh at hi
  by_cases hd : d.y = 0
  · simp [hd] at hi
  · simp only [hd, if_false] at hi
    split_ifs at hi with hc
    · rw [List.mem_singleton] at hi
      subst hi
      refine ⟨hc.1, ?_, rfl⟩
      simp only [Vector3.addScaledVector, Vector3.mk.injEq]
      refine ⟨by ring, ?_, by ring⟩
      field_simp
    · simp at hi

theorem segmentIntersectTerrain_none_of_rising (sqrt : ℚ → ℚ) (terrain : Mesh) (rc : Raycaster)
    (a b : Vector3) (floor : ℚ) (hsqrt : ∀ q, 0 ≤ sqrt q)
    (hray : ∀ o d i, i ∈ terrain o d → 0 ≤ i.distance ∧ i.point = o.addScaledVector d i.distance)
    (hbelow : ∀ o d i, i ∈ terrain o d → i.point.y < floor)
    (ha : floor ≤ a.y) (hab : a.y ≤ b.y) :
    (segmentIntersectTerrain sqrt terrain rc a b).1 = none := by
  unfold segmentIntersectTerrain
  dsimp only
  split_ifs with hl
  · rfl
  · have hnil : ({ rc.set a ((Vector3.subVectors b a).normalize sqrt) with
        far := some ((Vector3.subVectors b a).length sqrt + 1 / 100) } :
          Raycaster).intersectObject terrain = [] := by
      rw [List.eq_nil_iff_forall_not_mem]
      intro i hi
      have hm := intersectObject_mem _ _ _ hi
      obtain ⟨ht, hp⟩ := hray _ _ _ hm
      have hb := hbelow _ _ _ hm
      rw [hp] at hb
      have hlen : 0 ≤ Vector3.length sqrt (Vector3.subVectors b a) := hsqrt _
      simp only [Vector3.subVectors] at hl hlen
      simp only [Raycaster.set, Vector3.addScaledVector, Vector3.normalize,
        Vector3.multiplyScalar, Vector3.subVectors, if_neg hl] at hb
      have hpos : 0 ≤ (b.y - a.y) *
          (1 / Vector3.length sqrt ⟨b.x - a.x, b.y - a.y, b.z - a.z⟩) * i.distance :=
        mul_nonneg (mul_nonneg (by linarith) (by positivity)) ht
      linarith
    rw [hnil]
    rfl


theorem arcLoop_rising (sqrt : ℚ → ℚ) (terrain : Mesh) (origin : Vector3)
    (hsqrt : ∀ q, 0 ≤ sqrt q)
    (hray : ∀ o d i, i ∈ terrain o d → 0 ≤ i.distance ∧ i.point = o.addScaledVector d i.distance)
    (hbelow : ∀ o d i, i ∈ terrain o d → i.point.y < origin.y) :
    ∀ (n : Nat) (points reached : List Vector3) (p v : Vector3) (rc : Raycaster),
      v.x = 0 → v.z = 0 → (n : ℚ) * (49 / 300) < v.y →
      p.x = origin.x → p.z = origin.z → origin.y ≤ p.y →
      (∀ q ∈ points, origin.y ≤ q.y ∧ q.y ≤ p.y) →
      (∀ q ∈ reached, q.x = origin.x ∧ q.z = origin.z ∧ origin.y < q.y) →
      List.Chain' (fun a b : Vector3 => a.y < b.y) (origin :: reached) →
      (origin :: reached).getLast? = some p →
      (arcLoop sqrt terrain origin n points reached p v rc).hitPoint = none ∧
      (arcLoop sqrt terrain origin n points reached p v rc).points.length = points.length + n ∧
      (arcLoop sqrt terrain origin n points reached p v rc).reached.length =
        reached.length + n ∧
      (∀ q ∈ (arcLoop sqrt terrain origin n points reached p v rc).reached,
        q.x = origin.x ∧ q.z = origin.z ∧ origin.y < q.y) ∧
      List.Chain' (fun a b : Vector3 => a.y < b.y)
        (origin :: (arcLoop sqrt terrain origin n points reached p v rc).reached) := by
  intro n
  induction n with
  | zero =>
    intro points reached p v rc _ _ _ _ _ _ _ hr hc _
    exact ⟨rfl, rfl, rfl, hr, hc⟩
  | succ n ih =>
    intro points reached p v rc hvx hvz hvy hpx hpz hpy hpts hr hc hlast
    have hv1y : (v.addScaledVector ⟨0, -ARC_GRAVITY, 0⟩ (1 / 60)).y = v.y - 49 / 300 := by
      simp only [Vector3.addScaledVector, ARC_GRAVITY]; ring
    have hv1x : (v.addScaledVector ⟨0, -ARC_GRAVITY, 0⟩ (1 / 60)).x = 0 := by
      simp only [Vector3.addScaledVector, hvx]; ring
    have hv1z : (v.addScaledVector ⟨0, -ARC_GRAVITY, 0⟩ (1 / 60)).z = 0 := by
      simp only [Vector3.addScaledVector, hvz]; ring
    have hn : (n : ℚ) * (49 / 300) < v.y - 49 / 300 := by
      push_cast at hvy; linarith
    have hn0 : (0 : ℚ) ≤ (n : ℚ) * (49 / 300) := by positivity
    set v1 := v.addScaledVector ⟨0, -ARC_GRAVITY, 0⟩ (1 / 60) with hv1
    set p1 := p.addScaledVector v1 (1 / 60) with hp1
    have hp1y : p.y < p1.y := by
      simp only [hp1, Vector3.addScaledVector]
      have : 0 < v1.y * (1 / 60) := by rw [hv1y]; linarith
      linarith
    have hp1x : p1.x = origin.x := by
      simp only [hp1, Vector3.addScaledVector, hv1x, hpx]; ring
    have hp1z : p1.z = origin.z := by
      simp only [hp1, Vector3.addScaledVector, hv1z, hpz]; ring
    have hpts1 : ∀ q ∈ points ++ [p], origin.y ≤ q.y ∧ q.y ≤ p.y := by
      intro q hq
      rcases List.mem_append.1 hq with h | h
      · exact hpts q h
      · rw [List.mem_singleton.1 h]; exact ⟨hpy, le_refl _⟩
    have hsrc : ∀ src : Vector3,
        src = (if 2 ≤ (points ++ [p]).length then
          (points ++ [p]).getD ((points ++ [p]).length - 2) origin else origin) →
        origin.y ≤ src.y ∧ src.y ≤ p.y := by
      intro src hs
      split_ifs at hs
      · rw [List.getD_eq_getElem?_getD] at hs
        cases hq : (points ++ [p])[(points ++ [p]).length - 2]? with
        | none => rw [hq] at hs; rw [hs]; exact ⟨le_refl _, hpy⟩
        | some q => rw [hq] at hs; rw [hs]; exact hpts1 q (List.getElem?_mem hq)
      · rw [hs]; exact ⟨le_refl _, hpy⟩
    obtain ⟨hs1, hs2⟩ := hsrc _ rfl
    have hseg := segmentIntersectTerrain_none_of_rising sqrt terrain rc
      (if 2 ≤ (points ++ [p]).length then
          (points ++ [p]).getD ((points ++ [p]).length - 2) origin else origin) p1 origin.y
      hsqrt hray hbelow hs1 (by linarith)
    rcases hres : segmentIntersectTerrain sqrt terrain rc
      (if 2 ≤ (points ++ [p]).length then
          (points ++ [p]).getD ((points ++ [p]).length - 2) origin else origin) p1 with ⟨o, rc1⟩
    rw [hres] at hseg
    simp only at hseg
    subst hseg
    have hstep : arcLoop sqrt terrain origin (n + 1) points reached p v rc =
        arcLoop sqrt terrain origin n (points ++ [p]) (reached ++ [p1]) p1 v1 rc1 := by
      rw [arcLoop]
      simp only [← hv1, ← hp1, hres]
    rw [hstep]
    have hr1 : ∀ q ∈ reached ++ [p1], q.x = origin.x ∧ q.z = origin.z ∧ origin.y < q.y := by
      intro q hq
      rcases List.mem_append.1 hq with h | h
      · exact hr q h
      · rw [List.mem_singleton.1 h]; exact ⟨hp1x, hp1z, by linarith⟩
    have hc1 : List.Chain' (fun a b : Vector3 => a.y < b.y) (origin :: (reached ++ [p1])) := by
      rw [← List.cons_append]
      refine List.Chain'.append hc (List.chain'_singleton _) ?_
      intro x hx y hy
      rw [hlast] at hx
      simp only [Option.mem_def, Option.some.injEq, List.head?_cons] at hx hy
      rw [← hx, ← hy]; exact hp1y
    have hlast1 : (origin :: (reached ++ [p1])).getLast? = some p1 := by
      rw [← List.cons_append, List.getLast?_concat]
    obtain ⟨r1, r2, r3, r4, r5⟩ := ih (points ++ [p]) (reached ++ [p1]) p1 v1 rc1 hv1x hv1z
      (by rw [hv1y]; exact hn) hp1x hp1z (by linarith)
      (fun q hq => ⟨(hpts1 q hq).1, by linarith [(hpts1 q hq).2]⟩) hr1 hc1 hlast1
    refine ⟨r1, ?_, ?_, r4, r5⟩
    · rw [r2, List.length_append, List.length_singleton]; omega
    · rw [r3, List.length_append, List.length_singleton]; omega


/-- C4: while the arc is shown, with the initial direction `(0, 1, 0)` and a terrain all of
whose intersection points lie on the cast ray and strictly below the origin, the 40 positions
reached by the integration keep `x = o.x` and `z = o.z`, rise strictly from one to the next and
lie strictly above `o.y`; no segment test hits, all 40 steps run, `teleportValid` is false
afterwards and `teleportPoint` is as before. -/
theorem updateTeleportArc_straight_up (sqrt : ℚ → ℚ) (terrain : Mesh) (st : State)
    (origin : Vector3) (hvis : st.arcLineVisible = true) (hsqrt : ∀ q, 0 ≤ sqrt q)
    (hray : ∀ o d i, i ∈ terrain o d → 0 ≤ i.distance ∧ i.point = o.addScaledVector d i.distance)
    (hbelow : ∀ o d i, i ∈ terrain o d → i.point.y < origin.y) :
    (arcTrace sqrt terrain st._raycaster origin ⟨0, 1, 0⟩).reached.length = ARC_STEPS ∧
      (∀ q ∈ (arcTrace sqrt terrain st._raycaster origin ⟨0, 1, 0⟩).reached,
        q.x = origin.x ∧ q.z = origin.z ∧ origin.y < q.y) ∧
      List.Chain' (fun a b : Vector3 => a.y < b.y)
        (origin :: (arcTrace sqrt terrain st._raycaster origin ⟨0, 1, 0⟩).reached) ∧
      (arcTrace sqrt terrain st._raycaster origin ⟨0, 1, 0⟩).hitPoint = none ∧
      (arcTrace sqrt terrain st._raycaster origin ⟨0, 1, 0⟩).points.length = ARC_STEPS ∧
      (updateTeleportArc sqrt terrain st origin ⟨0, 1, 0⟩).teleportValid = false ∧
      (updateTeleportArc sqrt terrain st origin ⟨0, 1, 0⟩).teleportPoint = st.teleportPoint := by
  obtain ⟨h1, h2, h3, h4, h5⟩ := arcLoop_rising sqrt terrain origin hsqrt hray hbelow ARC_STEPS
    [] [] origin (Vector3.multiplyScalar ⟨0, 1, 0⟩ ARC_SPEED) st._raycaster
    (by simp [Vector3.multiplyScalar]) (by simp [Vector3.multiplyScalar])
    (by norm_num [Vector3.multiplyScalar, ARC_STEPS, ARC_SPEED]) rfl rfl (le_refl _)
    (by simp) (by simp) (List.chain'_singleton _) rfl
  have ht : arcTrace sqrt terrain st._raycaster origin ⟨0, 1, 0⟩ =
      arcLoop sqrt terrain origin ARC_STEPS [] [] origin
        (Vector3.multiplyScalar ⟨0, 1, 0⟩ ARC_SPEED) st._raycaster := rfl
  rw [ht]
  refine ⟨by simpa using h3, h4, h5, h1, by simpa using h2, ?_, ?_⟩
  · simp only [updateTeleportArc, hvis, ht, h1]
    rfl
  · simp only [updateTeleportArc, hvis, ht, h1]
    rfl

/-- C4 (witness): the arc of the right controller held at `(0, 1, 0)` over the flat terrain at
height 0, right after `selectstart` in the initial state. -/
theorem updateTeleportArc_straight_up_witness :
    (updateTeleportArc ratSqrt (flatMesh 0 130 130) (selectstartRight (State.init (fun _ => 0)))
        ⟨0, 1, 0⟩ ⟨0, 1, 0⟩).teleportValid = false ∧
      (arcTrace ratSqrt (flatMesh 0 130 130) Raycaster.new ⟨0, 1, 0⟩ ⟨0, 1, 0⟩).points.length =
        40 :=
  have h := updateTeleportArc_straight_up ratSqrt (flatMesh 0 130 130)
    (selectstartRight (State.init (fun _ => 0))) ⟨0, 1, 0⟩ rfl ratSqrt_nonneg
    (fun o d i hi => ⟨(flatMesh_mem _ _ _ o d i hi).1, (flatMesh_mem _ _ _ o d i hi).2.1⟩)
    (fun o d i hi => by rw [(flatMesh_mem _ _ _ o d i hi).2.2]; norm_num)
  ⟨h.2.2.2.2.2.1, h.2.2.2.2.1⟩


/-! ## Facts about the scene graph -/

theorem Heap.remove_fields (h : Heap) (p c u : Nat) :
    ((Heap.remove h p c) u).userData = (h u).userData ∧
      ((Heap.remove h p c) u).position = (h u).position ∧
      ((Heap.remove h p c) u).isMesh = (h u).isMesh ∧
      ((Heap.remove h p c) u).disposed = (h u).disposed ∧
      (u ≠ c → ((Heap.remove h p c) u).parent = (h u).parent) ∧
      ((Heap.remove h p c) u).children ⊆ (h u).children := by
  unfold Heap.remove
  split_ifs with hc
  · by_cases hup : u = p <;> by_cases huc : u = c <;>
      simp [Heap.modify, Function.update_apply, hup, huc, List.erase_subset]
    · subst hup; subst huc; simp [List.erase_subset]
    · subst hup; simp [List.erase_subset, huc]
    · subst huc; simp [hup]
  · simp


theorem Heap.add_fields (h : Heap) (p c u : Nat) :
    ((Heap.add h p c) u).userData = (h u).userData ∧
      ((Heap.add h p c) u).position = (h u).position ∧
      ((Heap.add h p c) u).isMesh = (h u).isMesh ∧
      ((Heap.add h p c) u).disposed = (h u).disposed ∧
      (u ≠ c → ((Heap.add h p c) u).parent = (h u).parent) ∧
      (u ≠ p → ((Heap.add h p c) u).children ⊆ (h u).children) := by
  have key : ∀ h1 : Heap,
      (h1 u).userData = (h u).userData → (h1 u).position = (h u).position →
      (h1 u).isMesh = (h u).isMesh → (h1 u).disposed = (h u).disposed →
      (u ≠ c → (h1 u).parent = (h u).parent) → (h1 u).children ⊆ (h u).children →
      let h2 := Heap.modify (Heap.modify h1 c (fun o => { o with parent := some p })) p
        (fun o => { o with children := o.children ++ [c] })
      (h2 u).userData = (h u).userData ∧ (h2 u).position = (h u).position ∧
        (h2 u).isMesh = (h u).isMesh ∧ (h2 u).disposed = (h u).disposed ∧
        (u ≠ c → (h2 u).parent = (h u).parent) ∧
        (u ≠ p → (h2 u).children ⊆ (h u).children) := by
    intro h1 e1 e2 e3 e4 e5 e6
    by_cases hup : u = p <;> by_cases huc : u = c <;>
      simp_all [Heap.modify, Function.update_apply]
  unfold Heap.add
  cases hq : (h c).parent with
  | none => exact key h rfl rfl rfl rfl (fun _ => rfl) (List.Subset.refl _)
  | some q =>
    obtain ⟨r1, r2, r3, r4, r5, r6⟩ := Heap.remove_fields h q c u
    exact key _ r1 r2 r3 r4 r5 r6

theorem Heap.add_parent_self (h : Heap) (p c : Nat) :
    ((Heap.add h p c) c).parent = some p := by
  unfold Heap.add
  by_cases hcp : c = p <;> simp [Heap.modify, Function.update_apply, hcp]

theorem Heap.add_children_self (h : Heap) (p c : Nat) :
    c ∈ ((Heap.add h p c) p).children := by
  unfold Heap.add
  simp [Heap.modify, Function.update_apply]


theorem Heap.Preserved.refl (n : Nat) (h : Heap) : Heap.Preserved n h h :=
  fun _ _ => ⟨rfl, rfl, rfl, fun _ => List.Subset.refl _⟩

theorem Heap.Preserved.trans {n : Nat} {h h1 h2 : Heap} (a : Heap.Preserved n h h1)
    (b : Heap.Preserved n h1 h2) : Heap.Preserved n h h2 := by
  intro u hu
  obtain ⟨a1, a2, a3, a4⟩ := a u hu
  obtain ⟨b1, b2, b3, b4⟩ := b u hu
  exact ⟨b1.trans a1, b2.trans a2, b3.trans a3, fun hw => (b4 hw).trans (a4 hw)⟩

theorem Heap.preserved_update (n : Nat) (h : Heap) (id : Nat) (o : Object3D) (hid : n ≤ id) :
    Heap.Preserved n h (Function.update h id o) := by
  intro u hu
  have : u ≠ id := by omega
  simp [Function.update_apply, this]

theorem Heap.preserved_modify (n : Nat) (h : Heap) (id : Nat) (f : Object3D → Object3D)
    (hid : n ≤ id) : Heap.Preserved n h (Heap.modify h id f) :=
  Heap.preserved_update n h id _ hid

theorem Heap.preserved_add (n : Nat) (h : Heap) (p c : Nat) (hc : n ≤ c)
    (hp : n ≤ p ∨ p = world) : Heap.Preserved n h (Heap.add h p c) := by
  intro u hu
  obtain ⟨r1, r2, _, _, r5, r6⟩ := Heap.add_fields h p c u
  refine ⟨r5 (Nat.ne_of_lt (Nat.lt_of_lt_of_le hu hc)), r1, r2, fun hw => r6 ?_⟩
  rcases hp with hp | hp
  · exact Nat.ne_of_lt (Nat.lt_of_lt_of_le hu hp)
  · rw [hp]; exact hw

theorem foldl_crowns_preserved (n base crowns : Nat) (scale : ℚ) (hb : n ≤ base)
    (hc : n ≤ crowns) (l : List Nat) :
    ∀ h : Heap, Heap.Preserved n h (l.foldl (fun (h : Heap) i =>
      Heap.add (Function.update h (base + i)
        { Heap.mesh with position := ⟨0, (2 + (i : ℚ) * (7 / 10)) * scale, 0⟩ })
        crowns (base + i)) h) := by
  induction l with
  | nil => intro h; exact Heap.Preserved.refl n h
  | cons i l ih =>
    intro h
    rw [List.foldl_cons]
    exact ((Heap.preserved_update n h (base + i) _ (by omega)).trans
      (Heap.preserved_add n _ crowns (base + i) (by omega) (Or.inl hc))).trans (ih _)

theorem addTree_spec (path : Mesh) (st : State) (x z scale : ℚ) :
    ∃ (h : Heap) (rc : Raycaster),
      addTree path st x z scale =
        (st.nextId + 2 + (3 + ⌊st.random st.drawn * 2⌋.toNat),
          { st with
            heap := h
            nextId := st.nextId + 2 + (3 + ⌊st.random st.drawn * 2⌋.toNat) + 1
            _raycaster := rc
            drawn := st.drawn + 1 }) ∧
      rc.near = st._raycaster.near ∧ rc.far = st._raycaster.far ∧
      Heap.Preserved st.nextId st.heap h ∧
      (h (st.nextId + 2 + (3 + ⌊st.random st.drawn * 2⌋.toNat))).parent = some world ∧
      (h (st.nextId + 2 + (3 + ⌊st.random st.drawn * 2⌋.toNat))).position =
        ⟨x, (getTerrainHeight path st._raycaster x z).1 + 1 / 2, z⟩ ∧
      (st.nextId + 2 + (3 + ⌊st.random st.drawn * 2⌋.toNat)) ∈ (h world).children ∧
      (h st.nextId).parent = some (st.nextId + 2 + (3 + ⌊st.random st.drawn * 2⌋.toNat)) := by
  refine ⟨_, _, rfl, getTerrainHeight_snd_near _ _ _ _, getTerrainHeight_snd_far _ _ _ _,
    ?_, ?_, ?_, ?_, ?_⟩
  · refine Heap.Preserved.trans ?_ (Heap.preserved_add _ _ _ _ (by omega) (Or.inr rfl))
    refine Heap.Preserved.trans ?_ (Heap.preserved_modify _ _ _ _ (by omega))
    refine Heap.Preserved.trans ?_ (Heap.preserved_add _ _ _ _ (by omega) (Or.inl (by omega)))
    refine Heap.Preserved.trans ?_ (Heap.preserved_add _ _ _ _ (by omega) (Or.inl (by omega)))
    refine Heap.Preserved.trans ?_ (Heap.preserved_update _ _ _ _ (by omega))
    refine Heap.Preserved.trans ?_
      (foldl_crowns_preserved st.nextId (st.nextId + 2) (st.nextId + 1) scale (by omega)
        (by omega) _ _)
    exact (Heap.preserved_update _ _ _ _ (by omega)).trans
      (Heap.preserved_update _ _ _ _ (by omega))
  · exact Heap.add_parent_self _ _ _
  · rw [(Heap.add_fields _ _ _ _).2.1]
    simp [Heap.modify, State.nextRandom, getTerrainHeight]
  · exact Heap.add_children_self _ _ _
  · have hne : st.nextId ≠ st.nextId + 2 + (3 + ⌊st.random st.drawn * 2⌋.toNat) :=
      Nat.ne_of_lt (by omega)
    rw [(Heap.add_fields _ _ _ _).2.2.2.2.1 hne]
    simp only [Heap.modify, Function.update_apply, if_neg hne]
    rw [(Heap.add_fields _ _ _ _).2.2.2.2.1 (Nat.ne_of_lt (by omega))]
    exact Heap.add_parent_self _ _ _


theorem addRandomTree_spec (path : Mesh) (st : State) :
    ∃ (h : Heap) (rc : Raycaster),
      addRandomTree path st =
        { st with
          heap := h
          nextId := st.nextId + 2 + (3 + ⌊st.random (st.drawn + 3) * 2⌋.toNat) + 1
          trees := st.trees ++ [st.nextId + 2 + (3 + ⌊st.random (st.drawn + 3) * 2⌋.toNat)]
          _raycaster := rc
          drawn := st.drawn + 4 } ∧
      rc.near = st._raycaster.near ∧ rc.far = st._raycaster.far ∧
      Heap.Preserved st.nextId st.heap h ∧
      (h (st.nextId + 2 + (3 + ⌊st.random (st.drawn + 3) * 2⌋.toNat))).parent = some world ∧
      (h (st.nextId + 2 + (3 + ⌊st.random (st.drawn + 3) * 2⌋.toNat))).userData =
        some ⟨st.random st.drawn * pathWidth - pathWidth / 2,
          st.player.z - 200 - st.random (st.drawn + 1) * 1000,
          4 / 5 + st.random (st.drawn + 2) * (3 / 2)⟩ ∧
      (h (st.nextId + 2 + (3 + ⌊st.random (st.drawn + 3) * 2⌋.toNat))).position =
        ⟨st.random st.drawn * pathWidth - pathWidth / 2,
          (getTerrainHeight path st._raycaster (st.random st.drawn * pathWidth - pathWidth / 2)
            (st.player.z - 200 - st.random (st.drawn + 1) * 1000)).1 + 1 / 2,
          st.player.z - 200 - st.random (st.drawn + 1) * 1000⟩ ∧
      (st.nextId + 2 + (3 + ⌊st.random (st.drawn + 3) * 2⌋.toNat)) ∈ (h world).children ∧
      (h st.nextId).parent =
        some (st.nextId + 2 + (3 + ⌊st.random (st.drawn + 3) * 2⌋.toNat)) := by
  obtain ⟨h, rc, e, hn, hf, hp, h1, h2, h3, h4⟩ := addTree_spec path
    { st with drawn := st.drawn + 1 + 1 + 1 }
    (st.random st.drawn * pathWidth - pathWidth / 2)
    (st.player.z - 200 - st.random (st.drawn + 1) * 1000)
    (4 / 5 + st.random (st.drawn + 1 + 1) * (3 / 2))
  dsimp only at e hn hf hp h1 h2 h3 h4
  have hne : st.nextId ≠ st.nextId + 2 + (3 + ⌊st.random (st.drawn + 3) * 2⌋.toNat) :=
    Nat.ne_of_lt (by omega)
  refine ⟨Heap.modify h (st.nextId + 2 + (3 + ⌊st.random (st.drawn + 3) * 2⌋.toNat))
    (fun o => { o with userData := some ⟨st.random st.drawn * pathWidth - pathWidth / 2,
          st.player.z - 200 - st.random (st.drawn + 1) * 1000,
          4 / 5 + st.random (st.drawn + 2) * (3 / 2)⟩ }), rc, ?_, hn, hf, ?_, ?_, ?_, ?_, ?_, ?_⟩
  · simp only [addRandomTree, State.nextRandom, e]
  · exact hp.trans (Heap.preserved_modify _ _ _ _ (by omega))
  · simpa [Heap.modify] using h1
  · simp [Heap.modify]
  · simpa [Heap.modify] using h2
  · have hw : world ≠ st.nextId + 2 + (3 + ⌊st.random (st.drawn + 3) * 2⌋.toNat) :=
      (by unfold world; omega)
    simpa [Heap.modify, Function.update_apply, hw] using h3
  · simpa [Heap.modify, Function.update_apply, hne] using h4


theorem dispose_foldl_fields (l : List Nat) :
    ∀ (h : Heap) (u : Nat),
      ((l.foldl (fun (h : Heap) c =>
        if (h c).isMesh then Heap.modify h c (fun o => { o with disposed := true }) else h)
          h) u).parent = (h u).parent ∧
      ((l.foldl (fun (h : Heap) c =>
        if (h c).isMesh then Heap.modify h c (fun o => { o with disposed := true }) else h)
          h) u).children = (h u).children ∧
      ((l.foldl (fun (h : Heap) c =>
        if (h c).isMesh then Heap.modify h c (fun o => { o with disposed := true }) else h)
          h) u).userData = (h u).userData ∧
      ((l.foldl (fun (h : Heap) c =>
        if (h c).isMesh then Heap.modify h c (fun o => { o with disposed := true }) else h)
          h) u).position = (h u).position := by
  induction l with
  | nil => intro h u; exact ⟨rfl, rfl, rfl, rfl⟩
  | cons c l ih =>
    intro h u
    rw [List.foldl_cons]
    obtain ⟨a1, a2, a3, a4⟩ := ih
      (if (h c).isMesh then Heap.modify h c (fun o => { o with disposed := true }) else h) u
    rw [a1, a2, a3, a4]
    by_cases hm : (h c).isMesh = true <;> by_cases huc : u = c <;>
      simp [hm, huc, Heap.modify, Function.update_apply]

theorem removeTree_fields (st : State) (T u : Nat) :
    ((removeTree st T).heap u).userData = (st.heap u).userData ∧
      ((removeTree st T).heap u).position = (st.heap u).position ∧
      (T ∉ (st.heap scene).children →
        ((removeTree st T).heap u).parent = (st.heap u).parent ∧
        ((removeTree st T).heap u).children = (st.heap u).children) := by
  obtain ⟨a1, a2, a3, a4⟩ := dispose_foldl_fields
    (Heap.traverse (Heap.remove st.heap scene T) st.nextId T) (Heap.remove st.heap scene T) u
  obtain ⟨r1, r2, _, _, _, _⟩ := Heap.remove_fields st.heap scene T u
  refine ⟨?_, ?_, fun hT => ⟨?_, ?_⟩⟩
  · exact a3.trans r1
  · exact a4.trans r2
  · refine a1.trans ?_
    simp [Heap.remove, hT]
  · refine a2.trans ?_
    simp [Heap.remove, hT]

/-! ## Detaching a removed tree -/

/-- C9 (code at the failing input): in a state whose `scene` has only children that exist, let
`T` be the tree that `addRandomTree` appends to the collection; after `removeTree(T)` the
renderable `T` still has the parent `world` and is still among the children of `world`, since
`scene.remove(T)` acts on the children of `scene` only. -/
theorem removeTree_leaves_tree_attached (path : Mesh) (st : State) (T : Nat)
    (hn : 1 ≤ st.nextId) (hsc : ∀ c ∈ (st.heap scene).children, c < st.nextId)
    (hT : (addRandomTree path st).trees = st.trees ++ [T]) :
    ((removeTree (addRandomTree path st) T).heap T).parent = some world ∧
      T ∈ ((removeTree (addRandomTree path st) T).heap world).children := by
  obtain ⟨h, rc, e, _, _, hp, h1, _, _, h4, _⟩ := addRandomTree_spec path st
  rw [e] at hT
  have hTe : T = st.nextId + 2 + (3 + ⌊st.random (st.drawn + 3) * 2⌋.toNat) := by
    have := List.append_cancel_left hT
    simpa using this.symm
  have hnot : T ∉ ((addRandomTree path st).heap scene).children := by
    rw [e]
    intro hm
    have hsub := (hp scene (by unfold scene; omega)).2.2.2 (by decide) hm
    have := hsc T hsub
    omega
  obtain ⟨_, _, hr⟩ := removeTree_fields (addRandomTree path st) T T
  obtain ⟨_, _, hrw⟩ := removeTree_fields (addRandomTree path st) T world
  rw [(hr hnot).1, (hrw hnot).2, e, hTe]
  exact ⟨h1, h4⟩


/-- C9 (witness): the tree 7 of `oneTree` after `removeTree(7)`. -/
theorem removeTree_leaves_tree_attached_witness :
    ((removeTree oneTree 7).heap 7).parent = some world ∧
      7 ∈ ((removeTree oneTree 7).heap world).children :=
  removeTree_leaves_tree_attached flatPath (State.init (fun _ => 0)) 7
    (by simp [State.init]) (by simp [State.init, scene, world])
    (by show oneTree.trees = _; rw [oneTree_trees]; rfl)

/-! ## Pruning with a controller -/

theorem findRoot_of_chain (h : Heap) (m T fuel : Nat) (hm : (h m).parent = some T)
    (hT : (h T).parent = some world) (hw : (h world).parent = some scene) (hTs : T ≠ scene)
    (hf : 3 ≤ fuel) : findRoot h fuel m = some world := by
  obtain ⟨k, rfl⟩ : ∃ k, fuel = k + 3 := ⟨fuel - 3, by omega⟩
  have hws : world ≠ scene := by decide
  simp [findRoot, hm, hT, hw, hTs, hws]

set_option maxRecDepth 4000 in
theorem oneTree_hit :
    intersectObjects (oneTree.raycaster.set ⟨-5, 10, -197⟩ ⟨0, -1, 0⟩) oneTree.heap
      oneTree.nextId trunkOnly oneTree.trees = [⟨7, ⟨-5, 3, -197⟩, 2⟩] := by
  simp [oneTree, addRandomTree, addTree, State.init, State.nextRandom, Heap.add, Heap.modify,
    Heap.remove, Function.update_apply, Heap.group, Heap.mesh, world, scene, List.range_succ,
    intersectObjects, Heap.traverse, trunkOnly, flatMesh, Raycaster.set, Raycaster.inRange,
    Raycaster.new]
  norm_num


/-- C2 (code at the failing input): let `T` be the tree that `addRandomTree` appends to the
collection, in a state where `world` is a child of `scene` and not a tree.  When the ray of a
pressing controller first meets a mesh that is a child of `T`, the parent walk of
`checkCollisionWithController` passes `T` and stops at `world`, which is not in the collection:
nothing is removed and `T` is still a member. -/
theorem checkCollision_resolves_to_world (path : Mesh) (shape : Nat → Mesh) (st : State)
    (c : Controller) (T : Nat) (i : Intersection) (rest : List Intersection)
    (hn : 2 ≤ st.nextId) (hw : (st.heap world).parent = some scene) (hwt : world ∉ st.trees)
    (hT : (addRandomTree path st).trees = st.trees ++ [T])
    (hhit : intersectObjects ((addRandomTree path st).raycaster.set c.position c.worldDirection)
      (addRandomTree path st).heap (addRandomTree path st).nextId shape
      (addRandomTree path st).trees = i :: rest)
    (hobj : ((addRandomTree path st).heap i.object).parent = some T)
    (_hpress : c.isPressing = true) :
    findRoot (addRandomTree path st).heap (addRandomTree path st).nextId i.object = some world ∧
      (checkCollisionWithController shape (addRandomTree path st) c).trees =
        (addRandomTree path st).trees ∧
      T ∈ (checkCollisionWithController shape (addRandomTree path st) c).trees := by
  obtain ⟨h, rc, e, _, _, hp, h1, _, _, _, _⟩ := addRandomTree_spec path st
  have hT1 : (addRandomTree path st).trees = st.trees ++ [T] := hT
  rw [e] at hT
  have hTe : T = st.nextId + 2 + (3 + ⌊st.random (st.drawn + 3) * 2⌋.toNat) := by
    have := List.append_cancel_left hT
    simpa using this.symm
  have hroot : findRoot (addRandomTree path st).heap (addRandomTree path st).nextId i.object =
      some world := by
    refine findRoot_of_chain _ _ T _ hobj ?_ ?_ ?_ ?_
    · rw [e, hTe]; exact h1
    · rw [e]
      exact ((hp world (by unfold world; omega)).1).trans hw
    · rw [hTe]; unfold scene; omega
    · rw [e]; show 3 ≤ st.nextId + 2 + (3 + ⌊st.random (st.drawn + 3) * 2⌋.toNat) + 1; omega
  have hnw : world ∉ (addRandomTree path st).trees := by
    rw [hT1, List.mem_append, List.mem_singleton]
    rintro (hm | hm)
    · exact hwt hm
    · rw [hTe] at hm; unfold world at hm; omega
  have htrees : (checkCollisionWithController shape (addRandomTree path st) c).trees =
      (addRandomTree path st).trees := by
    unfold checkCollisionWithController
    simp only [hhit, hroot, hnw, false_and, if_false]
  refine ⟨hroot, htrees, ?_⟩
  rw [htrees, hT1]
  simp

/-- C2 (witness): the left controller held above the tree 7 of `oneTree` and pressed, its ray
meeting the trunk 2 first. -/
theorem checkCollision_resolves_to_world_witness :
    findRoot oneTree.heap oneTree.nextId 2 = some world ∧
      (checkCollisionWithController trunkOnly oneTree ⟨⟨-5, 10, -197⟩, ⟨0, -1, 0⟩, true⟩).trees =
        oneTree.trees ∧
      7 ∈ (checkCollisionWithController trunkOnly oneTree
        ⟨⟨-5, 10, -197⟩, ⟨0, -1, 0⟩, true⟩).trees :=
  checkCollision_resolves_to_world flatPath trunkOnly (State.init (fun _ => 0))
    ⟨⟨-5, 10, -197⟩, ⟨0, -1, 0⟩, true⟩ 7 ⟨7, ⟨-5, 3, -197⟩, 2⟩ []
    (by simp [State.init]) (by simp [State.init, scene, world]) (by simp [State.init])
    (by show oneTree.trees = _; rw [oneTree_trees]; rfl) oneTree_hit
    (by
      show (oneTree.heap 2).parent = some 7
      obtain ⟨h, rc, e, _, _, _, _, _, _, _, h5⟩ := addRandomTree_spec flatPath
        (State.init (fun _ => 0))
      have e1 : oneTree = _ := e
      rw [e1]
      simpa [State.init] using h5)
    rfl


/-! ## What each operation leaves alone -/

theorem moveSource_shape (sqrt : ℚ → ℚ) (path : Mesh) (camDir : Vector3) (dt : ℚ) (st : State)
    (src : InputSource) :
    ∃ p rc, moveSource sqrt path camDir dt st src = { st with player := p, _raycaster := rc } ∧
      rc.near = st._raycaster.near ∧ rc.far = st._raycaster.far := by
  unfold moveSource
  cases hg : src.gamepad with
  | none => exact ⟨st.player, st._raycaster, rfl, rfl, rfl⟩
  | some axes =>
    dsimp only
    split_ifs
    · exact ⟨st.player, st._raycaster, rfl, rfl, rfl⟩
    · exact ⟨_, _, rfl, getTerrainHeight_snd_near _ _ _ _, getTerrainHeight_snd_far _ _ _ _⟩

theorem vrGamepadMove_shape (sqrt : ℚ → ℚ) (path : Mesh) (camDir : Vector3) (dt : ℚ)
    (st : State) (session : Option (List InputSource)) :
    ∃ p rc, vrGamepadMove sqrt path camDir dt st session =
        { st with player := p, _raycaster := rc } ∧
      rc.near = st._raycaster.near ∧ rc.far = st._raycaster.far := by
  unfold vrGamepadMove
  cases session with
  | none => exact ⟨st.player, st._raycaster, rfl, rfl, rfl⟩
  | some sources =>
    dsimp only
    induction sources generalizing st with
    | nil => exact ⟨st.player, st._raycaster, rfl, rfl, rfl⟩
    | cons src l ih =>
      obtain ⟨p1, rc1, e1, n1, f1⟩ := moveSource_shape sqrt path camDir dt st src
      obtain ⟨p2, rc2, e2, n2, f2⟩ := ih (moveSource sqrt path camDir dt st src)
      refine ⟨p2, rc2, ?_, ?_, ?_⟩
      · rw [List.foldl_cons, e2, e1]
      · rw [n2, e1]; exact n1
      · rw [f2, e1]; exact f1

theorem updateTeleportArc_shape (sqrt : ℚ → ℚ) (terrain : Mesh) (st : State)
    (origin dir : Vector3) :
    ∃ v tp buf rc, updateTeleportArc sqrt terrain st origin dir =
      { st with teleportValid := v, teleportPoint := tp, _arcPoints := buf, _raycaster := rc } := by
  unfold updateTeleportArc
  split_ifs
  · exact ⟨_, _, _, _, rfl⟩
  · exact ⟨_, _, _, _, rfl⟩

theorem updateTeleportArc_hidden (sqrt : ℚ → ℚ) (terrain : Mesh) (st : State)
    (origin dir : Vector3) (h : st.arcLineVisible = false) :
    updateTeleportArc sqrt terrain st origin dir = st := by
  unfold updateTeleportArc
  simp [h]

theorem checkCollision_shape (shape : Nat → Mesh) (st : State) (c : Controller) :
    ∃ h tr rc, checkCollisionWithController shape st c =
        { st with heap := h, trees := tr, raycaster := rc } ∧
      (tr = st.trees ∨ ∃ T, tr = st.trees.erase T) ∧
      ∀ u, (h u).userData = (st.heap u).userData ∧ (h u).position = (st.heap u).position := by
  unfold checkCollisionWithController
  dsimp only
  split
  · exact ⟨_, _, _, rfl, Or.inl rfl, fun u => ⟨rfl, rfl⟩⟩
  · split
    · exact ⟨_, _, _, rfl, Or.inl rfl, fun u => ⟨rfl, rfl⟩⟩
    · rename_i tree _
      split_ifs
      · refine ⟨_, _, _, rfl, Or.inr ⟨tree, rfl⟩, fun u => ?_⟩
        obtain ⟨a, b, _⟩ := removeTree_fields
          { st with raycaster := st.raycaster.set c.position c.worldDirection } tree u
        exact ⟨a, b⟩
      · exact ⟨_, _, _, rfl, Or.inl rfl, fun u => ⟨rfl, rfl⟩⟩


/-! ## Trees stay on the probed height -/

theorem WellFormed.of_sublist {st st1 : State}
    (hh : ∀ u, (st1.heap u).userData = (st.heap u).userData)
    (ht : st1.trees.Sublist st.trees) (hn : st1.nextId = st.nextId) (hw : WellFormed st) :
    WellFormed st1 := by
  refine ⟨hw.1.sublist ht, fun t hmem => ?_⟩
  obtain ⟨h1, ud, h2⟩ := hw.2 t (ht.subset hmem)
  exact ⟨by rw [hn]; exact h1, ud, by rw [hh]; exact h2⟩

theorem checkCollision_wellFormed (shape : Nat → Mesh) (st : State) (c : Controller)
    (hw : WellFormed st) : WellFormed (checkCollisionWithController shape st c) := by
  obtain ⟨h, tr, rc, e, ht, hf⟩ := checkCollision_shape shape st c
  rw [e]
  refine WellFormed.of_sublist (fun u => (hf u).1) ?_ rfl hw
  rcases ht with rfl | ⟨T, rfl⟩
  · exact List.Sublist.refl _
  · exact List.erase_sublist _ _

theorem moveTrees_inv (path : Mesh) (st : State) (hw : WellFormed st) :
    WellFormed (moveTrees path st) ∧ Grounded path (moveTrees path st) := by
  obtain ⟨h, rc, d, e, hn, hf⟩ := foldl_moveTree_shape path st.trees st
  have e1 : moveTrees path st = { st with heap := h, _raycaster := rc, drawn := d } := e
  have hmem : ∀ t ∈ st.trees, ∃ ud1, ((moveTrees path st).heap t).userData = some ud1 ∧
      ((moveTrees path st).heap t).position =
        ⟨ud1.x, (getTerrainHeight path (moveTrees path st)._raycaster ud1.x ud1.z).1 + 1 / 2,
          ud1.z⟩ := by
    intro t ht
    obtain ⟨_, ud, hud⟩ := hw.2 t ht
    obtain ⟨ud1, _, hheap, _⟩ := moveTrees_heap_mem path st t ud hw.1 ht hud
    refine ⟨ud1, by rw [hheap], ?_⟩
    rw [hheap, getTerrainHeight_fst_congr path (moveTrees path st)._raycaster st._raycaster]
    · rw [e1]; exact hn
    · rw [e1]; exact hf
  constructor
  · refine ⟨by rw [moveTrees_trees]; exact hw.1, fun t ht => ?_⟩
    rw [moveTrees_trees] at ht
    obtain ⟨ud1, h1, _⟩ := hmem t ht
    exact ⟨by rw [e1]; exact (hw.2 t ht).1, ud1, h1⟩
  · intro t ht
    rw [moveTrees_trees] at ht
    exact hmem t ht

theorem animationFrame_inv (sqrt : ℚ → ℚ) (path : Mesh) (st : State) (inp : FrameInput)
    (hw : WellFormed st) :
    WellFormed (animationFrame sqrt path st inp) ∧
      Grounded path (animationFrame sqrt path st inp) := by
  unfold animationFrame
  dsimp only
  refine moveTrees_inv path _ ?_
  refine @WellFormed.of_sublist (if inp.isPresenting = true then _ else st) _
    (fun u => rfl) (List.Sublist.refl _) rfl ?_
  split_ifs
  · refine checkCollision_wellFormed _ _ _ (checkCollision_wellFormed _ _ _ ?_)
    obtain ⟨p, rc, e, _, _⟩ := vrGamepadMove_shape sqrt path inp.cameraDirection
      (min inp.delta (5 / 100)) st inp.session
    obtain ⟨v, tp, buf, rc2, e2⟩ := updateTeleportArc_shape sqrt inp.terrain
      (vrGamepadMove sqrt path inp.cameraDirection (min inp.delta (5 / 100)) st inp.session)
      inp.arcOrigin inp.arcDirection
    rw [e2, e]
    exact WellFormed.of_sublist (fun u => rfl) (List.Sublist.refl _) rfl hw
  · exact hw

theorem addRandomTree_inv (path : Mesh) (st : State) (hw : WellFormed st)
    (hg : Grounded path st) :
    WellFormed (addRandomTree path st) ∧ Grounded path (addRandomTree path st) := by
  obtain ⟨h, rc, e, hn, hf, hp, _, h2, h3, _, _⟩ := addRandomTree_spec path st
  rw [e]
  constructor
  · refine ⟨?_, fun t ht => ?_⟩
    · refine List.Nodup.append hw.1 (List.nodup_singleton _) ?_
      intro t ht ht2
      have := (hw.2 t ht).1
      rw [List.mem_singleton] at ht2
      omega
    · rcases List.mem_append.1 ht with hm | hm
      · obtain ⟨h1, ud, hud⟩ := hw.2 t hm
        exact ⟨by show t < _ + 1; omega, ud, by rw [← hud]; exact (hp t h1).2.1⟩
      · rw [List.mem_singleton] at hm
        exact ⟨by show t < _ + 1; omega, _, by rw [hm]; exact h2⟩
  · intro t ht
    rcases List.mem_append.1 ht with hm | hm
    · obtain ⟨ud, hud, hpos⟩ := hg t hm
      obtain ⟨q1, q2, q3, _⟩ := hp t (hw.2 t hm).1
      refine ⟨ud, q2.trans hud, ?_⟩
      show (h t).position = _
      rw [q3, hpos, getTerrainHeight_fst_congr path rc st._raycaster _ _ hn hf]
    · rw [List.mem_singleton] at hm
      refine ⟨_, by rw [hm]; exact h2, ?_⟩
      show (h t).position = _
      rw [hm, h3, getTerrainHeight_fst_congr path rc st._raycaster _ _ hn hf]

theorem step_inv (sqrt : ℚ → ℚ) (path : Mesh) (st : State) (ev : Event)
    (hw : WellFormed st) (hg : Grounded path st) :
    WellFormed (step sqrt path st ev) ∧ Grounded path (step sqrt path st ev) := by
  cases ev with
  | selectstartLeft => exact ⟨hw, hg⟩
  | selectendLeft => exact ⟨hw, hg⟩
  | selectstartRight => exact ⟨hw, hg⟩
  | selectendRight =>
    have key : ∃ p rc v, selectendRight path st =
        { st with rightPressing := false, arcLineVisible := v, player := p, _raycaster := rc } ∧
        rc.near = st._raycaster.near ∧ rc.far = st._raycaster.far := by
      unfold selectendRight
      dsimp only
      split_ifs
      · exact ⟨_, _, _, rfl, getTerrainHeight_snd_near _ _ _ _, getTerrainHeight_snd_far _ _ _ _⟩
      · exact ⟨_, _, _, rfl, rfl, rfl⟩
    obtain ⟨p, rc, v, e, hn, hf⟩ := key
    show WellFormed (selectendRight path st) ∧ Grounded path (selectendRight path st)
    rw [e]
    refine ⟨hw, fun t ht => ?_⟩
    obtain ⟨ud, hud, hpos⟩ := hg t ht
    refine ⟨ud, hud, ?_⟩
    show (st.heap t).position = _
    rw [hpos, getTerrainHeight_fst_congr path rc st._raycaster _ _ hn hf]
  | spawn => exact addRandomTree_inv path st hw hg
  | frame inp => exact animationFrame_inv sqrt path st inp hw

theorem run_inv (sqrt : ℚ → ℚ) (path : Mesh) (evs : List Event) :
    ∀ st : State, WellFormed st → Grounded path st →
      WellFormed (run sqrt path st evs) ∧ Grounded path (run sqrt path st evs) := by
  induction evs with
  | nil => intro st hw hg; exact ⟨hw, hg⟩
  | cons ev evs ih =>
    intro st hw hg
    obtain ⟨h1, h2⟩ := step_inv sqrt path st ev hw hg
    exact ih _ h1 h2

/-- C10: in every state reached from the initial one by controller events, spawn timer
firings (`addRandomTree`) and frames (each ending with a `moveTrees` pass), every tree of the
collection is rendered at
`(userData.x, getTerrainHeight(userData.x, userData.z) + 0.5, userData.z)`; in particular right
after `addRandomTree` returns and at the end of every `moveTrees` pass. -/
theorem trees_grounded (sqrt : ℚ → ℚ) (path : Mesh) (random : Nat → ℚ) (evs : List Event) :
    Grounded path (run sqrt path (State.init random) evs) ∧
      Grounded path (addRandomTree path (run sqrt path (State.init random) evs)) ∧
      Grounded path (moveTrees path (run sqrt path (State.init random) evs)) := by
  have h0 : WellFormed (State.init random) ∧ Grounded path (State.init random) :=
    ⟨⟨List.nodup_nil, fun t ht => absurd ht (List.not_mem_nil t)⟩,
      fun t ht => absurd ht (List.not_mem_nil t)⟩
  obtain ⟨hw, hg⟩ := run_inv sqrt path evs _ h0.1 h0.2
  exact ⟨hg, (addRandomTree_inv path _ hw hg).2, (moveTrees_inv path _ hw).2⟩


/-! ## The teleport target after a press-end -/

theorem moveTrees_teleport (path : Mesh) (st : State) :
    (moveTrees path st).arcLineVisible = st.arcLineVisible ∧
      (moveTrees path st).teleportValid = st.teleportValid ∧
      (moveTrees path st).teleportPoint = st.teleportPoint ∧
      (moveTrees path st).player = st.player := by
  obtain ⟨h, rc, d, e, _, _⟩ := foldl_moveTree_shape path st.trees st
  have e1 : moveTrees path st = { st with heap := h, _raycaster := rc, drawn := d } := e
  rw [e1]
  exact ⟨rfl, rfl, rfl, rfl⟩

theorem checkCollision_teleport (shape : Nat → Mesh) (st : State) (c : Controller) :
    (checkCollisionWithController shape st c).arcLineVisible = st.arcLineVisible ∧
      (checkCollisionWithController shape st c).teleportValid = st.teleportValid ∧
      (checkCollisionWithController shape st c).teleportPoint = st.teleportPoint ∧
      (checkCollisionWithController shape st c).player = st.player := by
  obtain ⟨h, tr, rc, e, _, _⟩ := checkCollision_shape shape st c
  rw [e]
  exact ⟨rfl, rfl, rfl, rfl⟩

theorem vrGamepadMove_teleport (sqrt : ℚ → ℚ) (path : Mesh) (camDir : Vector3) (dt : ℚ)
    (st : State) (session : Option (List InputSource)) :
    (vrGamepadMove sqrt path camDir dt st session).arcLineVisible = st.arcLineVisible ∧
      (vrGamepadMove sqrt path camDir dt st session).teleportValid = st.teleportValid ∧
      (vrGamepadMove sqrt path camDir dt st session).teleportPoint = st.teleportPoint := by
  obtain ⟨p, rc, e, _, _⟩ := vrGamepadMove_shape sqrt path camDir dt st session
  rw [e]
  exact ⟨rfl, rfl, rfl⟩

theorem animationFrame_teleport (sqrt : ℚ → ℚ) (path : Mesh) (st : State) (inp : FrameInput)
    (hv : st.arcLineVisible = false) :
    (animationFrame sqrt path st inp).arcLineVisible = false ∧
      (animationFrame sqrt path st inp).teleportValid = st.teleportValid ∧
      (animationFrame sqrt path st inp).teleportPoint = st.teleportPoint := by
  unfold animationFrame
  dsimp only
  rw [(moveTrees_teleport _ _).1, (moveTrees_teleport _ _).2.1, (moveTrees_teleport _ _).2.2.1]
  dsimp only
  split_ifs
  · have hu := updateTeleportArc_hidden sqrt inp.terrain
      (vrGamepadMove sqrt path inp.cameraDirection (min inp.delta (5 / 100)) st inp.session)
      inp.arcOrigin inp.arcDirection (by rw [(vrGamepadMove_teleport _ _ _ _ _ _).1]; exact hv)
    rw [hu]
    simp [checkCollision_teleport, vrGamepadMove_teleport, hv]
  · exact ⟨hv, rfl, rfl⟩

theorem frames_teleport (sqrt : ℚ → ℚ) (path : Mesh) (frames : List FrameInput) :
    ∀ st : State, st.arcLineVisible = false →
      (run sqrt path st (frames.map Event.frame)).arcLineVisible = false ∧
      (run sqrt path st (frames.map Event.frame)).teleportValid = st.teleportValid ∧
      (run sqrt path st (frames.map Event.frame)).teleportPoint = st.teleportPoint := by
  induction frames with
  | nil => intro st hv; exact ⟨hv, rfl, rfl⟩
  | cons inp l ih =>
    intro st hv
    obtain ⟨a1, a2, a3⟩ := animationFrame_teleport sqrt path st inp hv
    obtain ⟨b1, b2, b3⟩ := ih (animationFrame sqrt path st inp) a1
    exact ⟨b1, b2.trans a2, b3.trans a3⟩

/-- C5 (code at the failing input): when an arc update has left `teleportValid` true, the
press-end that confirms the teleport does not clear it, frames run with the arc hidden do not
clear it either, and a later press-start followed at once by a press-end, with no arc update in
between, sets the player to the old target again, wherever the player has walked meanwhile. -/
theorem stale_target_reused (sqrt : ℚ → ℚ) (path : Mesh) (st : State)
    (frames : List FrameInput) (hv : st.teleportValid = true) :
    (selectendRight path st).teleportValid = true ∧
      (run sqrt path (selectendRight path st) (frames.map Event.frame)).teleportValid = true ∧
      (run sqrt path (run sqrt path (selectendRight path st) (frames.map Event.frame))
        [Event.selectstartRight, Event.selectendRight]).player =
        ⟨st.teleportPoint.x,
          (getTerrainHeight path
            (run sqrt path (selectendRight path st) (frames.map Event.frame))._raycaster
            st.teleportPoint.x st.teleportPoint.z).1 + 8 / 5,
          st.teleportPoint.z⟩ := by
  have h1 : (selectendRight path st).teleportValid = true ∧
      (selectendRight path st).teleportPoint = st.teleportPoint ∧
      (selectendRight path st).arcLineVisible = false := by
    unfold selectendRight
    simp [hv]
  obtain ⟨f1, f2, f3⟩ := frames_teleport sqrt path frames (selectendRight path st) h1.2.2
  refine ⟨h1.1, f2.trans h1.1, ?_⟩
  have hv2 := f2.trans h1.1
  have hp2 := f3.trans h1.2.1
  generalize run sqrt path (selectendRight path st) (frames.map Event.frame) = s2 at hv2 hp2 ⊢
  show (selectendRight path (selectstartRight s2)).player = _
  simp [selectendRight, selectstartRight, hv2, hp2]


theorem first_segment_hit (sqrt : ℚ → ℚ) (rc : Raycaster) (hn : rc.near = 0)
    (hl : Vector3.length sqrt ⟨0, -(2299 / 18000), 0⟩ = 2299 / 18000) :
    ∃ rc1, segmentIntersectTerrain sqrt (flatMesh 0 130 130) rc ⟨0, 1 / 10, 0⟩
      ⟨0, -(499 / 18000), 0⟩ = (some ⟨0, 0, 0⟩, rc1) := by
  have hs : Vector3.subVectors ⟨0, -(499 / 18000), 0⟩ ⟨0, 1 / 10, 0⟩ =
      ⟨0, -(2299 / 18000), 0⟩ := by
    norm_num [Vector3.subVectors]
  refine ⟨_, Prod.ext ?_ rfl⟩
  unfold segmentIntersectTerrain
  simp only [hs, hl]
  norm_num [Raycaster.intersectObject, Raycaster.set, Raycaster.inRange, flatMesh,
    Vector3.normalize, Vector3.multiplyScalar, hl, hn]

theorem aim_frame_hits (sqrt : ℚ → ℚ)
    (hl : Vector3.length sqrt ⟨0, -(2299 / 18000), 0⟩ = 2299 / 18000) :
    (run sqrt flatPath (State.init (fun _ => 0))
        [Event.selectstartRight, Event.frame aimFrame]).teleportValid = true ∧
      (run sqrt flatPath (State.init (fun _ => 0))
        [Event.selectstartRight, Event.frame aimFrame]).teleportPoint = ⟨0, 0, 0⟩ := by
  simp only [run, List.foldl_cons, List.foldl_nil, step]
  unfold animationFrame
  dsimp only
  rw [(moveTrees_teleport _ _).2.1, (moveTrees_teleport _ _).2.2.1]
  have hp : aimFrame.isPresenting = true := rfl
  simp only [hp, if_true, checkCollision_teleport]
  have hv : vrGamepadMove sqrt flatPath aimFrame.cameraDirection (min aimFrame.delta (5 / 100))
      (selectstartRight (State.init (fun _ => 0))) aimFrame.session =
      selectstartRight (State.init (fun _ => 0)) := by
    simp only [aimFrame, vrGamepadMove]
  rw [hv]
  have hp1 : (Vector3.addScaledVector ⟨0, 1 / 10, 0⟩
      (Vector3.addScaledVector (Vector3.multiplyScalar ⟨0, -1, 0⟩ ARC_SPEED)
        ⟨0, -ARC_GRAVITY, 0⟩ (1 / 60)) (1 / 60)) = ⟨0, -(499 / 18000), 0⟩ := by
    norm_num [Vector3.addScaledVector, Vector3.multiplyScalar, ARC_SPEED, ARC_GRAVITY]
  obtain ⟨rc1, hseg⟩ := first_segment_hit sqrt Raycaster.new rfl hl
  have ht : (arcTrace sqrt (flatMesh 0 130 130) Raycaster.new ⟨0, 1 / 10, 0⟩
      ⟨0, -1, 0⟩).hitPoint = some ⟨0, 0, 0⟩ := by
    unfold arcTrace
    rw [show ARC_STEPS = 39 + 1 from rfl, arcLoop]
    simp only [List.nil_append, List.length_singleton, hp1]
    norm_num [hseg]
  simp only [updateTeleportArc, selectstartRight, State.init, aimFrame, ht]
  simp


theorem selectendRight_z_of_valid (path : Mesh) (st : State) (hv : st.teleportValid = true) :
    (selectendRight path st).player.z = st.teleportPoint.z := by
  unfold selectendRight
  simp [hv]

theorem run_single_frame (sqrt : ℚ → ℚ) (path : Mesh) (st : State) (inp : FrameInput) :
    run sqrt path st ([inp].map Event.frame) = animationFrame sqrt path st inp := rfl

theorem walk_frame_player (sqrt : ℚ → ℚ) (h1 : sqrt 1 = 1) (path : Mesh) (st : State) :
    (animationFrame sqrt path st walkFrame).player.x = st.player.x ∧
      (animationFrame sqrt path st walkFrame).player.z = st.player.z - 9 / 50 := by
  unfold animationFrame
  dsimp only
  rw [(moveTrees_teleport _ _).2.2.2]
  have hp : walkFrame.isPresenting = true := rfl
  simp only [hp, if_true, checkCollision_teleport]
  obtain ⟨v, tp, buf, rc, e⟩ := updateTeleportArc_shape sqrt walkFrame.terrain
    (vrGamepadMove sqrt path walkFrame.cameraDirection (min walkFrame.delta (5 / 100)) st
      walkFrame.session) walkFrame.arcOrigin walkFrame.arcDirection
  rw [e]
  have hs : sqrt (0 * 0 + 0 * 0 + -1 * -1) = 1 := by norm_num [h1]
  have hs2 : sqrt ((0 * 0 - -1 * 1) * (0 * 0 - -1 * 1) + (-1 * 0 - 0 * 0) * (-1 * 0 - 0 * 0) +
      (0 * 1 - 0 * 0) * (0 * 1 - 0 * 0)) = 1 := by norm_num [h1]
  have hm : min (1 / 10 : ℚ) (5 / 100) = 5 / 100 := by norm_num
  simp only [walkFrame, aimFrame, vrGamepadMove, List.foldl_cons, List.foldl_nil, moveSource,
    selectAxes, deadZone, hm]
  norm_num [Vector3.normalize, Vector3.length, Vector3.crossVectors, Vector3.multiplyScalar,
    Vector3.addScaledVector, Vector3.add, VR_WALK_SPEED, VR_STRAFE_SPEED, hs, hs2, h1]
  ring


theorem first_segment_length :
    Vector3.length ratSqrt ⟨0, -(2299 / 18000), 0⟩ = 2299 / 18000 := by
  have : (0 : ℚ) * 0 + -(2299 / 18000) * -(2299 / 18000) + 0 * 0 =
      (2299 / 18000) * (2299 / 18000) := by norm_num
  simp only [Vector3.length, this, ratSqrt_mul_self]
  norm_num [abs_of_pos]

theorem ratSqrt_one : ratSqrt 1 = 1 := by
  have h := ratSqrt_mul_self 1
  rwa [mul_one, abs_one] at h

/-- C5 (witness): from the initial state, a press-start and one frame of aiming straight down
leave a valid target at `(0, 0, 0)`; the press-end teleports there; one frame of walking moves
the player to `z = -9/50`; a press-start followed at once by a press-end puts the player back at
`z = 0`, no arc update having run since that press-start. -/
theorem stale_target_reused_witness :
    (run ratSqrt flatPath (State.init (fun _ => 0))
          [Event.selectstartRight, Event.frame aimFrame]).teleportValid = true ∧
      (run ratSqrt flatPath (State.init (fun _ => 0))
          [Event.selectstartRight, Event.frame aimFrame]).teleportPoint = ⟨0, 0, 0⟩ ∧
      (run ratSqrt flatPath (selectendRight flatPath (run ratSqrt flatPath (State.init (fun _ => 0))
          [Event.selectstartRight, Event.frame aimFrame]))
        ([walkFrame].map Event.frame)).player.z = -(9 / 50) ∧
      (run ratSqrt flatPath (run ratSqrt flatPath (selectendRight flatPath (run ratSqrt flatPath (State.init (fun _ => 0))
          [Event.selectstartRight, Event.frame aimFrame]))
        ([walkFrame].map Event.frame)) [Event.selectstartRight, Event.selectendRight]).player.z = 0 := by
  obtain ⟨hv, hp⟩ := aim_frame_hits ratSqrt first_segment_length
  have h := stale_target_reused ratSqrt flatPath (run ratSqrt flatPath (State.init (fun _ => 0))
          [Event.selectstartRight, Event.frame aimFrame]) [walkFrame] hv
  refine ⟨hv, hp, ?_, ?_⟩
  · have hw := (walk_frame_player ratSqrt ratSqrt_one flatPath (selectendRight flatPath (run ratSqrt flatPath (State.init (fun _ => 0))
          [Event.selectstartRight, Event.frame aimFrame]))).2
    have hz : (selectendRight flatPath (run ratSqrt flatPath (State.init (fun _ => 0))
          [Event.selectstartRight, Event.frame aimFrame])).player.z = 0 := by
      have h1 := (selectendRight_z_of_valid flatPath (run ratSqrt flatPath (State.init (fun _ => 0))
          [Event.selectstartRight, Event.frame aimFrame]) hv)
      rw [h1, hp]
    rw [run_single_frame, hw, hz]
    norm_num
  · rw [h.2.2, hp]


/-! ## The segments tested by the arc -/

theorem arc_src_eq (points : List Vector3) (p origin : Vector3) :
    (if 2 ≤ (points ++ [p]).length then
        (points ++ [p]).getD ((points ++ [p]).length - 2) origin else origin) =
      points.getLast?.getD origin := by
  rcases List.eq_nil_or_concat points with rfl | ⟨l, a, rfl⟩
  · simp
  · simp only [List.concat_eq_append]
    have h1 : (l ++ [a] ++ [p]).length - 2 = l.length := by simp
    have h2 : 2 ≤ (l ++ [a] ++ [p]).length := by simp
    rw [if_pos h2, h1, List.getLast?_concat, List.getD_eq_getElem?_getD, List.append_assoc,
      List.getElem?_append_right (le_refl _)]
    simp

theorem segmentIntersectTerrain_snd (sqrt : ℚ → ℚ) (terrain : Mesh) (rc : Raycaster)
    (a b : Vector3) (hl : Vector3.length sqrt (Vector3.subVectors b a) ≠ 0) :
    (segmentIntersectTerrain sqrt terrain rc a b).2 =
      { rc with
        origin := a
        direction := Vector3.normalize sqrt (Vector3.subVectors b a)
        far := some (Vector3.length sqrt (Vector3.subVectors b a) + 1 / 100) } := by
  unfold segmentIntersectTerrain
  simp only [if_neg hl]
  rfl

theorem segmentIntersectTerrain_zero_length (sqrt : ℚ → ℚ) (terrain : Mesh) (rc : Raycaster)
    (a : Vector3) (h0 : sqrt 0 = 0) :
    segmentIntersectTerrain sqrt terrain rc a a = (none, rc) := by
  unfold segmentIntersectTerrain
  have hl : Vector3.length sqrt (Vector3.subVectors a a) = 0 := by
    simp [Vector3.length, Vector3.subVectors, h0]
  simp only [hl, if_true]

theorem arcCalls_spec (sqrt : ℚ → ℚ) (terrain : Mesh) (origin : Vector3) :
    ∀ (n : Nat) (points reached : List Vector3) (p v : Vector3) (rc : Raycaster),
      ∃ news : List Vector3,
        (arcLoop sqrt terrain origin n points reached p v rc).points = points ++ news ∧
        news.length = (arcCalls sqrt terrain origin n points p v rc).length ∧
        (1 ≤ n → news.head? = some p) ∧
        (arcCalls sqrt terrain origin n points p v rc).length ≤ n ∧
        (arcLoop sqrt terrain origin n points reached p v rc).reached =
          reached ++ (arcCalls sqrt terrain origin n points p v rc).map SegmentCall.b ∧
        (arcCalls sqrt terrain origin n points p v rc).map SegmentCall.a =
          ((points.getLast?.getD origin) :: news).dropLast ∧
        (∀ k c h, (arcCalls sqrt terrain origin n points p v rc)[k]? = some c →
          c.hit = some h →
          k + 1 = (arcCalls sqrt terrain origin n points p v rc).length ∧
            (arcLoop sqrt terrain origin n points reached p v rc).hitPoint = some h) ∧
        ((arcLoop sqrt terrain origin n points reached p v rc).hitPoint = none →
          (arcCalls sqrt terrain origin n points p v rc).length = n) ∧
        (∀ c, (arcCalls sqrt terrain origin n points p v rc).getLast? = some c →
          Vector3.length sqrt (Vector3.subVectors c.b c.a) ≠ 0 →
          (arcLoop sqrt terrain origin n points reached p v rc).probe.origin = c.a ∧
          (arcLoop sqrt terrain origin n points reached p v rc).probe.far =
            some (Vector3.length sqrt (Vector3.subVectors c.b c.a) + 1 / 100)) := by
  intro n
  induction n with
  | zero =>
    intro points reached p v rc
    refine ⟨[], by simp [arcLoop], by simp [arcCalls], by simp, by simp [arcCalls],
      by simp [arcLoop, arcCalls], by simp [arcCalls], ?_, by simp [arcCalls], ?_⟩
    · intro k c h hk; simp [arcCalls] at hk
    · intro c hc; simp [arcCalls] at hc
  | succ n ih =>
    intro points reached p v rc
    have hsrc := arc_src_eq points p origin
    rcases hres : segmentIntersectTerrain sqrt terrain rc (points.getLast?.getD origin)
      (p.addScaledVector (v.addScaledVector ⟨0, -ARC_GRAVITY, 0⟩ (1 / 60)) (1 / 60))
      with ⟨o, rc1⟩
    cases o with
    | some hit =>
      have e1 : arcLoop sqrt terrain origin (n + 1) points reached p v rc =
          ⟨points ++ [p], some hit, reached ++
            [p.addScaledVector (v.addScaledVector ⟨0, -ARC_GRAVITY, 0⟩ (1 / 60)) (1 / 60)],
            rc1⟩ := by
        rw [arcLoop]; simp only [hsrc, hres]
      have e2 : arcCalls sqrt terrain origin (n + 1) points p v rc =
          [⟨points.getLast?.getD origin,
            p.addScaledVector (v.addScaledVector ⟨0, -ARC_GRAVITY, 0⟩ (1 / 60)) (1 / 60),
            some hit⟩] := by
        rw [arcCalls]; simp only [hsrc, hres]
      rw [e1, e2]
      refine ⟨[p], rfl, rfl, fun _ => rfl, by simp, rfl, rfl, ?_, by simp, ?_⟩
      · intro k c h hk hh
        cases k with
        | zero =>
          simp only [List.getElem?_cons_zero, Option.some.injEq] at hk
          subst hk
          exact ⟨rfl, by simpa using hh⟩
        | succ k => simp at hk
      · intro c hc hl
        simp only [List.getLast?_singleton, Option.some.injEq] at hc
        subst hc
        have := segmentIntersectTerrain_snd sqrt terrain rc _ _ hl
        rw [hres] at this
        simp only at this
        rw [this]
        exact ⟨rfl, rfl⟩
    | none =>
      have e1 : arcLoop sqrt terrain origin (n + 1) points reached p v rc =
          arcLoop sqrt terrain origin n (points ++ [p]) (reached ++
            [p.addScaledVector (v.addScaledVector ⟨0, -ARC_GRAVITY, 0⟩ (1 / 60)) (1 / 60)])
            (p.addScaledVector (v.addScaledVector ⟨0, -ARC_GRAVITY, 0⟩ (1 / 60)) (1 / 60))
            (v.addScaledVector ⟨0, -ARC_GRAVITY, 0⟩ (1 / 60)) rc1 := by
        rw [arcLoop]; simp only [hsrc, hres]
      have e2 : arcCalls sqrt terrain origin (n + 1) points p v rc =
          ⟨points.getLast?.getD origin,
            p.addScaledVector (v.addScaledVector ⟨0, -ARC_GRAVITY, 0⟩ (1 / 60)) (1 / 60),
            none⟩ :: arcCalls sqrt terrain origin n (points ++ [p])
            (p.addScaledVector (v.addScaledVector ⟨0, -ARC_GRAVITY, 0⟩ (1 / 60)) (1 / 60))
            (v.addScaledVector ⟨0, -ARC_GRAVITY, 0⟩ (1 / 60)) rc1 := by
        rw [arcCalls]; simp only [hsrc, hres]
      obtain ⟨news, i1, i2, i3, i4, i5, i6, i7, i8, i9⟩ := ih (points ++ [p]) (reached ++
        [p.addScaledVector (v.addScaledVector ⟨0, -ARC_GRAVITY, 0⟩ (1 / 60)) (1 / 60)])
        (p.addScaledVector (v.addScaledVector ⟨0, -ARC_GRAVITY, 0⟩ (1 / 60)) (1 / 60))
        (v.addScaledVector ⟨0, -ARC_GRAVITY, 0⟩ (1 / 60)) rc1
      rw [e1, e2]
      refine ⟨p :: news, by rw [i1, List.append_assoc]; rfl,
        by rw [List.length_cons, List.length_cons, i2], fun _ => rfl,
        by rw [List.length_cons]; omega,
        by rw [i5, List.append_assoc]; rfl, ?_, ?_, ?_, ?_⟩
      · rw [List.map_cons, i6, List.getLast?_concat]
        simp
      · intro k c h hk hh
        cases k with
        | zero =>
          simp only [List.getElem?_cons_zero, Option.some.injEq] at hk
          subst hk
          simp at hh
        | succ k =>
          simp only [List.getElem?_cons_succ] at hk
          obtain ⟨a1, a2⟩ := i7 k c h hk hh
          exact ⟨by rw [List.length_cons]; omega, a2⟩
      · intro hn
        rw [List.length_cons, i8 hn]
      · intro c hc hl
        cases n with
        | zero =>
          simp only [arcCalls, List.getLast?_singleton, Option.some.injEq] at hc
          subst hc
          have := segmentIntersectTerrain_snd sqrt terrain rc _ _ hl
          rw [hres] at this
          simp only at this
          simp only [arcLoop]
          rw [this]
          exact ⟨rfl, rfl⟩
        | succ m =>
          have hne : arcCalls sqrt terrain origin (m + 1) (points ++ [p])
              (p.addScaledVector (v.addScaledVector ⟨0, -ARC_GRAVITY, 0⟩ (1 / 60)) (1 / 60))
              (v.addScaledVector ⟨0, -ARC_GRAVITY, 0⟩ (1 / 60)) rc1 ≠ [] := by
            intro hnil
            have h3 := i3 (by omega)
            rw [hnil] at i2
            have : news = [] := List.length_eq_zero.1 (by simpa using i2)
            rw [this] at h3
            simp at h3
          obtain ⟨d, l, hdl⟩ := List.exists_cons_of_ne_nil hne
          rw [hdl, List.getLast?_cons_cons, ← hdl] at hc
          exact i9 c hc hl


theorem arcTrace_calls (sqrt : ℚ → ℚ) (terrain : Mesh) (rc : Raycaster)
    (origin dir : Vector3) :
    (arcTrace sqrt terrain rc origin dir).points.length =
        (arcCalls sqrt terrain origin ARC_STEPS [] origin (dir.multiplyScalar ARC_SPEED)
          rc).length ∧
      (arcTrace sqrt terrain rc origin dir).points.head? = some origin ∧
      (arcCalls sqrt terrain origin ARC_STEPS [] origin (dir.multiplyScalar ARC_SPEED)
        rc).length ≤ ARC_STEPS ∧
      (arcTrace sqrt terrain rc origin dir).reached =
        (arcCalls sqrt terrain origin ARC_STEPS [] origin (dir.multiplyScalar ARC_SPEED)
          rc).map SegmentCall.b ∧
      (arcCalls sqrt terrain origin ARC_STEPS [] origin (dir.multiplyScalar ARC_SPEED)
        rc).map SegmentCall.a = (origin :: (arcTrace sqrt terrain rc origin dir).points).dropLast ∧
      (∀ k c h, (arcCalls sqrt terrain origin ARC_STEPS [] origin
          (dir.multiplyScalar ARC_SPEED) rc)[k]? = some c → c.hit = some h →
        k + 1 = (arcCalls sqrt terrain origin ARC_STEPS [] origin
          (dir.multiplyScalar ARC_SPEED) rc).length ∧
          (arcTrace sqrt terrain rc origin dir).hitPoint = some h) ∧
      ((arcTrace sqrt terrain rc origin dir).hitPoint = none →
        (arcCalls sqrt terrain origin ARC_STEPS [] origin (dir.multiplyScalar ARC_SPEED)
          rc).length = ARC_STEPS) ∧
      (∀ c, (arcCalls sqrt terrain origin ARC_STEPS [] origin (dir.multiplyScalar ARC_SPEED)
          rc).getLast? = some c →
        Vector3.length sqrt (Vector3.subVectors c.b c.a) ≠ 0 →
        (arcTrace sqrt terrain rc origin dir).probe.origin = c.a ∧
        (arcTrace sqrt terrain rc origin dir).probe.far =
          some (Vector3.length sqrt (Vector3.subVectors c.b c.a) + 1 / 100)) := by
  obtain ⟨news, i1, i2, i3, i4, i5, i6, i7, i8, i9⟩ := arcCalls_spec sqrt terrain origin
    ARC_STEPS [] [] origin (dir.multiplyScalar ARC_SPEED) rc
  have e : arcTrace sqrt terrain rc origin dir =
      arcLoop sqrt terrain origin ARC_STEPS [] [] origin (dir.multiplyScalar ARC_SPEED) rc := rfl
  rw [e]
  rw [List.nil_append] at i1 i5
  rw [i1]
  exact ⟨i2, i3 (by decide), i4, i5, by simpa using i6, i7, i8, i9⟩

/-- C11 (code at the failing input): one arc update makes one call of
`segmentIntersectTerrain` per recorded sample, and the calls end at the positions reached after
each sub-step; but they start at `origin, points[0], points[1], ...`: the call of step
`i >= 1` starts at the sample `i - 1`, not at the sample `i` held before that sub-step, so its
segment spans two sub-steps, and the ray that the last call leaves in the probe starts there and
has the length of that segment plus 0.01. -/
theorem arcCalls_start_one_sample_back (sqrt : ℚ → ℚ) (terrain : Mesh) (rc : Raycaster)
    (origin dir : Vector3) :
    (arcCalls sqrt terrain origin ARC_STEPS [] origin (dir.multiplyScalar ARC_SPEED)
        rc).length = (arcTrace sqrt terrain rc origin dir).points.length ∧
      (arcCalls sqrt terrain origin ARC_STEPS [] origin (dir.multiplyScalar ARC_SPEED)
        rc).map SegmentCall.b = (arcTrace sqrt terrain rc origin dir).reached ∧
      (arcCalls sqrt terrain origin ARC_STEPS [] origin (dir.multiplyScalar ARC_SPEED)
        rc).map SegmentCall.a = (origin :: (arcTrace sqrt terrain rc origin dir).points).dropLast ∧
      (∀ i c, 1 ≤ i →
        (arcCalls sqrt terrain origin ARC_STEPS [] origin (dir.multiplyScalar ARC_SPEED)
          rc)[i]? = some c →
        (arcTrace sqrt terrain rc origin dir).points[i - 1]? = some c.a) ∧
      (∀ c, (arcCalls sqrt terrain origin ARC_STEPS [] origin (dir.multiplyScalar ARC_SPEED)
          rc).getLast? = some c →
        Vector3.length sqrt (Vector3.subVectors c.b c.a) ≠ 0 →
        (arcTrace sqrt terrain rc origin dir).probe.origin = c.a ∧
        (arcTrace sqrt terrain rc origin dir).probe.far =
          some (Vector3.length sqrt (Vector3.subVectors c.b c.a) + 1 / 100)) := by
  obtain ⟨h1, _, _, h4, h5, _, _, h8⟩ := arcTrace_calls sqrt terrain rc origin dir
  refine ⟨h1.symm, h4.symm, h5, ?_, h8⟩
  intro i c hi hc
  have hlt : i < (arcCalls sqrt terrain origin ARC_STEPS [] origin
      (dir.multiplyScalar ARC_SPEED) rc).length := by
    by_contra hge
    rw [List.getElem?_eq_none (not_lt.1 hge)] at hc
    exact Option.noConfusion hc
  have hm : ((arcCalls sqrt terrain origin ARC_STEPS [] origin
      (dir.multiplyScalar ARC_SPEED) rc).map SegmentCall.a)[i]? = some c.a := by
    rw [List.getElem?_map, hc]; rfl
  rw [h5, List.dropLast_eq_take, List.getElem?_take_of_lt (by
    rw [List.length_cons, h1]; omega)] at hm
  obtain ⟨j, rfl⟩ : ∃ j, i = j + 1 := ⟨i - 1, by omega⟩
  simpa using hm


theorem straight_up_first_two (sqrt : ℚ → ℚ) (hsqrt : ∀ q, 0 ≤ sqrt q) (rc : Raycaster) :
    ∃ rest, (arcTrace sqrt (flatMesh 0 130 130) rc ⟨0, 1, 0⟩ ⟨0, 1, 0⟩).points =
      ⟨0, 1, 0⟩ :: ⟨0, 20201 / 18000, 0⟩ :: rest := by
  have hp1 : Vector3.addScaledVector ⟨0, 1, 0⟩
      (Vector3.addScaledVector (Vector3.multiplyScalar ⟨0, 1, 0⟩ ARC_SPEED)
        ⟨0, -ARC_GRAVITY, 0⟩ (1 / 60)) (1 / 60) = ⟨0, 20201 / 18000, 0⟩ := by
    norm_num [Vector3.addScaledVector, Vector3.multiplyScalar, ARC_SPEED, ARC_GRAVITY]
  have hseg := segmentIntersectTerrain_none_of_rising sqrt (flatMesh 0 130 130) rc
    ⟨0, 1, 0⟩ ⟨0, 20201 / 18000, 0⟩ 1 hsqrt
    (fun o d i hi => ⟨(flatMesh_mem _ _ _ o d i hi).1, (flatMesh_mem _ _ _ o d i hi).2.1⟩)
    (fun o d i hi => by rw [(flatMesh_mem _ _ _ o d i hi).2.2]; norm_num)
    (le_refl _) (by norm_num)
  rw [← hp1] at hseg
  rcases hres : segmentIntersectTerrain sqrt (flatMesh 0 130 130) rc
    (([] : List Vector3).getLast?.getD ⟨0, 1, 0⟩)
    (Vector3.addScaledVector ⟨0, 1, 0⟩
      (Vector3.addScaledVector (Vector3.multiplyScalar ⟨0, 1, 0⟩ ARC_SPEED)
        ⟨0, -ARC_GRAVITY, 0⟩ (1 / 60)) (1 / 60)) with ⟨o, rc1⟩
  have ho : o = none := by
    have h : (segmentIntersectTerrain sqrt (flatMesh 0 130 130) rc
        (([] : List Vector3).getLast?.getD ⟨0, 1, 0⟩)
        (Vector3.addScaledVector ⟨0, 1, 0⟩
          (Vector3.addScaledVector (Vector3.multiplyScalar ⟨0, 1, 0⟩ ARC_SPEED)
            ⟨0, -ARC_GRAVITY, 0⟩ (1 / 60)) (1 / 60))).1 = none := hseg
    rw [hres] at h
    exact h
  subst ho
  have e1 : arcTrace sqrt (flatMesh 0 130 130) rc ⟨0, 1, 0⟩ ⟨0, 1, 0⟩ =
      arcLoop sqrt (flatMesh 0 130 130) ⟨0, 1, 0⟩ 39 ([] ++ [⟨0, 1, 0⟩])
        ([] ++ [Vector3.addScaledVector ⟨0, 1, 0⟩
          (Vector3.addScaledVector (Vector3.multiplyScalar ⟨0, 1, 0⟩ ARC_SPEED)
            ⟨0, -ARC_GRAVITY, 0⟩ (1 / 60)) (1 / 60)])
        (Vector3.addScaledVector ⟨0, 1, 0⟩
          (Vector3.addScaledVector (Vector3.multiplyScalar ⟨0, 1, 0⟩ ARC_SPEED)
            ⟨0, -ARC_GRAVITY, 0⟩ (1 / 60)) (1 / 60))
        (Vector3.addScaledVector (Vector3.multiplyScalar ⟨0, 1, 0⟩ ARC_SPEED)
            ⟨0, -ARC_GRAVITY, 0⟩ (1 / 60)) rc1 := by
    unfold arcTrace
    rw [show ARC_STEPS = 39 + 1 from rfl, arcLoop]
    simp only [arc_src_eq, hres]
  obtain ⟨news, i1, _, i3, _⟩ := arcCalls_spec sqrt (flatMesh 0 130 130) ⟨0, 1, 0⟩ 39
    ([] ++ [⟨0, 1, 0⟩])
    ([] ++ [Vector3.addScaledVector ⟨0, 1, 0⟩
      (Vector3.addScaledVector (Vector3.multiplyScalar ⟨0, 1, 0⟩ ARC_SPEED)
        ⟨0, -ARC_GRAVITY, 0⟩ (1 / 60)) (1 / 60)])
    (Vector3.addScaledVector ⟨0, 1, 0⟩
      (Vector3.addScaledVector (Vector3.multiplyScalar ⟨0, 1, 0⟩ ARC_SPEED)
        ⟨0, -ARC_GRAVITY, 0⟩ (1 / 60)) (1 / 60))
    (Vector3.addScaledVector (Vector3.multiplyScalar ⟨0, 1, 0⟩ ARC_SPEED)
        ⟨0, -ARC_GRAVITY, 0⟩ (1 / 60)) rc1
  have h3 := i3 (by decide)
  rw [hp1] at h3
  cases news with
  | nil => exact Option.noConfusion h3
  | cons q rest =>
    simp only [List.head?_cons, Option.some.injEq] at h3
    subst h3
    exact ⟨rest, by rw [e1, i1]; rfl⟩

/-- C11 (witness): the arc aimed straight up from `(0, 1, 0)` over the flat ocean at height 0.
The second recorded sample is `(0, 20201/18000, 0)`, yet the second call of
`segmentIntersectTerrain` starts at `(0, 1, 0)`, the first sample, like the first call. -/
theorem arcCalls_start_one_sample_back_witness :
    ((arcCalls ratSqrt (flatMesh 0 130 130) ⟨0, 1, 0⟩ ARC_STEPS [] ⟨0, 1, 0⟩
        (Vector3.multiplyScalar ⟨0, 1, 0⟩ ARC_SPEED) Raycaster.new).map SegmentCall.a).take 2 =
        [⟨0, 1, 0⟩, ⟨0, 1, 0⟩] ∧
      (arcTrace ratSqrt (flatMesh 0 130 130) Raycaster.new ⟨0, 1, 0⟩ ⟨0, 1, 0⟩).points.take 2 =
        [⟨0, 1, 0⟩, ⟨0, 20201 / 18000, 0⟩] := by
  obtain ⟨rest, hpts⟩ := straight_up_first_two ratSqrt ratSqrt_nonneg Raycaster.new
  have h := (arcCalls_start_one_sample_back ratSqrt (flatMesh 0 130 130) Raycaster.new
    ⟨0, 1, 0⟩ ⟨0, 1, 0⟩).2.2.1
  rw [hpts] at h
  rw [h, hpts]
  exact ⟨rfl, rfl⟩


/-! ## The arc buffer -/

theorem flatMap_triple_length (g : Nat → Vector3) (l : List Nat) :
    (l.flatMap (fun i => [(g i).x, (g i).y, (g i).z])).length = l.length * 3 := by
  induction l with
  | nil => rfl
  | cons a l ih =>
    rw [List.flatMap_cons, List.length_append, ih, List.length_cons]
    simp only [List.length_cons, List.length_nil]
    omega

theorem arcSlot_range_flatMap (g : Nat → Vector3) (n i : Nat) (hi : i < n) :
    arcSlot ((List.range n).flatMap (fun i => [(g i).x, (g i).y, (g i).z])) i = g i := by
  induction n with
  | zero => omega
  | succ n ih =>
    rw [List.range_succ, List.flatMap_append]
    have hlen := flatMap_triple_length g (List.range n)
    rw [List.length_range] at hlen
    by_cases hin : i < n
    · have h := ih hin
      unfold arcSlot at h ⊢
      rw [List.getD_append _ _ _ _ (by omega), List.getD_append _ _ _ _ (by omega),
        List.getD_append _ _ _ _ (by omega)]
      exact h
    · have hn : i = n := by omega
      subst hn
      unfold arcSlot
      rw [List.getD_append_right _ _ _ _ (by omega), List.getD_append_right _ _ _ _ (by omega),
        List.getD_append_right _ _ _ _ (by omega), hlen]
      have e0 : i * 3 + 0 - i * 3 = 0 := by omega
      have e1 : i * 3 + 1 - i * 3 = 1 := by omega
      have e2 : i * 3 + 2 - i * 3 = 2 := by omega
      rw [e0, e1, e2]
      rfl

/-- C12: after an update with the arc shown, the sample list has between 1 and 40 entries and
the buffer holds 40 points (120 numbers); every index `min(i, used - 1)` is in bounds; slot `i`
is the sample `i` for `i < used` and the last sample for `used <= i < 40`; and when the call of
step `k` returns an intersection `h`, no earlier call returned one, `used = k + 1`,
`teleportValid` is true and `teleportPoint` is `h`. -/
theorem updateTeleportArc_buffer (sqrt : ℚ → ℚ) (terrain : Mesh) (st : State)
    (origin dir : Vector3) (hvis : st.arcLineVisible = true) :
    1 ≤ (arcTrace sqrt terrain st._raycaster origin dir).points.length ∧
      (arcTrace sqrt terrain st._raycaster origin dir).points.length ≤ ARC_STEPS ∧
      (updateTeleportArc sqrt terrain st origin dir)._arcPoints.length = ARC_STEPS * 3 ∧
      (∀ i, i < ARC_STEPS →
        min i ((arcTrace sqrt terrain st._raycaster origin dir).points.length - 1) <
          (arcTrace sqrt terrain st._raycaster origin dir).points.length) ∧
      (∀ i, i < (arcTrace sqrt terrain st._raycaster origin dir).points.length →
        (arcTrace sqrt terrain st._raycaster origin dir).points[i]? =
          some (arcSlot (updateTeleportArc sqrt terrain st origin dir)._arcPoints i)) ∧
      (∀ i, (arcTrace sqrt terrain st._raycaster origin dir).points.length ≤ i →
        i < ARC_STEPS →
        (arcTrace sqrt terrain st._raycaster origin dir).points.getLast? =
          some (arcSlot (updateTeleportArc sqrt terrain st origin dir)._arcPoints i)) ∧
      (∀ k c h, (arcCalls sqrt terrain origin ARC_STEPS [] origin
          (dir.multiplyScalar ARC_SPEED) st._raycaster)[k]? = some c → c.hit = some h →
        (∀ j c1, j < k → (arcCalls sqrt terrain origin ARC_STEPS [] origin
          (dir.multiplyScalar ARC_SPEED) st._raycaster)[j]? = some c1 → c1.hit = none) ∧
        (arcTrace sqrt terrain st._raycaster origin dir).points.length = k + 1 ∧
        (updateTeleportArc sqrt terrain st origin dir).teleportValid = true ∧
        (updateTeleportArc sqrt terrain st origin dir).teleportPoint = h) := by
  obtain ⟨h1, h2, h3, _, _, h6, _, _⟩ := arcTrace_calls sqrt terrain st._raycaster origin dir
  have hpos : 1 ≤ (arcTrace sqrt terrain st._raycaster origin dir).points.length := by
    cases hp : (arcTrace sqrt terrain st._raycaster origin dir).points with
    | nil => rw [hp] at h2; exact Option.noConfusion h2
    | cons a l => simp
  have hle : (arcTrace sqrt terrain st._raycaster origin dir).points.length ≤ ARC_STEPS := by
    rw [h1]; exact h3
  have hbuf : (updateTeleportArc sqrt terrain st origin dir)._arcPoints =
      (List.range ARC_STEPS).flatMap (fun i =>
        [((arcTrace sqrt terrain st._raycaster origin dir).points.getD
            (min i ((arcTrace sqrt terrain st._raycaster origin dir).points.length - 1))
            ⟨0, 0, 0⟩).x,
          ((arcTrace sqrt terrain st._raycaster origin dir).points.getD
            (min i ((arcTrace sqrt terrain st._raycaster origin dir).points.length - 1))
            ⟨0, 0, 0⟩).y,
          ((arcTrace sqrt terrain st._raycaster origin dir).points.getD
            (min i ((arcTrace sqrt terrain st._raycaster origin dir).points.length - 1))
            ⟨0, 0, 0⟩).z]) := by
    simp only [updateTeleportArc, hvis, Bool.not_true]
    rfl
  have hslot : ∀ i, i < ARC_STEPS →
      arcSlot (updateTeleportArc sqrt terrain st origin dir)._arcPoints i =
        (arcTrace sqrt terrain st._raycaster origin dir).points.getD
          (min i ((arcTrace sqrt terrain st._raycaster origin dir).points.length - 1))
          ⟨0, 0, 0⟩ := by
    intro i hi
    rw [hbuf]
    exact arcSlot_range_flatMap (fun i =>
      (arcTrace sqrt terrain st._raycaster origin dir).points.getD
        (min i ((arcTrace sqrt terrain st._raycaster origin dir).points.length - 1))
        ⟨0, 0, 0⟩) ARC_STEPS i hi
  refine ⟨hpos, hle, ?_, ?_, ?_, ?_, ?_⟩
  · rw [hbuf]
    rw [flatMap_triple_length (fun i =>
      (arcTrace sqrt terrain st._raycaster origin dir).points.getD
        (min i ((arcTrace sqrt terrain st._raycaster origin dir).points.length - 1))
        ⟨0, 0, 0⟩), List.length_range]
  · intro i _
    omega
  · intro i hi
    rw [hslot i (by omega), Nat.min_eq_left (by omega), List.getD_eq_getElem?_getD,
      List.getElem?_eq_getElem hi]
    rfl
  · intro i hi hi2
    rw [hslot i hi2, Nat.min_eq_right (by omega), List.getD_eq_getElem?_getD,
      List.getLast?_eq_getElem?,
      List.getElem?_eq_getElem (by omega : (arcTrace sqrt terrain st._raycaster origin
        dir).points.length - 1 < (arcTrace sqrt terrain st._raycaster origin dir).points.length)]
    rfl
  · intro k c h hk hh
    obtain ⟨a1, a2⟩ := h6 k c h hk hh
    refine ⟨?_, by rw [h1]; exact a1.symm, ?_, ?_⟩
    · intro j c1 hj hc1
      cases hc : c1.hit with
      | none => rfl
      | some h' =>
        have := (h6 j c1 h' hc1 hc).1
        omega
    · simp only [updateTeleportArc, hvis, Bool.not_true]
      simp [a2]
    · simp only [updateTeleportArc, hvis, Bool.not_true]
      simp [a2]


theorem aim_calls (sqrt : ℚ → ℚ) (rc : Raycaster) (hn : rc.near = 0)
    (hl : Vector3.length sqrt ⟨0, -(2299 / 18000), 0⟩ = 2299 / 18000) :
    arcCalls sqrt (flatMesh 0 130 130) ⟨0, 1 / 10, 0⟩ ARC_STEPS [] ⟨0, 1 / 10, 0⟩
        (Vector3.multiplyScalar ⟨0, -1, 0⟩ ARC_SPEED) rc =
      [⟨⟨0, 1 / 10, 0⟩, ⟨0, -(499 / 18000), 0⟩, some ⟨0, 0, 0⟩⟩] := by
  have hp1 : (Vector3.addScaledVector ⟨0, 1 / 10, 0⟩
      (Vector3.addScaledVector (Vector3.multiplyScalar ⟨0, -1, 0⟩ ARC_SPEED)
        ⟨0, -ARC_GRAVITY, 0⟩ (1 / 60)) (1 / 60)) = ⟨0, -(499 / 18000), 0⟩ := by
    norm_num [Vector3.addScaledVector, Vector3.multiplyScalar, ARC_SPEED, ARC_GRAVITY]
  obtain ⟨rc1, hseg⟩ := first_segment_hit sqrt rc hn hl
  have hseg2 : segmentIntersectTerrain sqrt (flatMesh 0 130 130) rc
      (([] : List Vector3).getLast?.getD ⟨0, 1 / 10, 0⟩) ⟨0, -(499 / 18000), 0⟩ =
      (some ⟨0, 0, 0⟩, rc1) := hseg
  rw [show ARC_STEPS = 39 + 1 from rfl, arcCalls]
  simp only [arc_src_eq, hp1, hseg2]
  rfl

/-- C12 (witness): the arc of the right controller held at `(0, 1/10, 0)` and aimed straight
down over the flat ocean at height 0, right after `selectstart` in the initial state: the first
call returns `(0, 0, 0)`, so one sample is recorded, the target is valid and is `(0, 0, 0)`, and
the buffer has 120 numbers. -/
theorem updateTeleportArc_buffer_witness :
    (arcTrace ratSqrt (flatMesh 0 130 130) (selectstartRight (State.init (fun _ => 0)))._raycaster
        ⟨0, 1 / 10, 0⟩ ⟨0, -1, 0⟩).points.length = 0 + 1 ∧
      (updateTeleportArc ratSqrt (flatMesh 0 130 130) (selectstartRight (State.init (fun _ => 0)))
        ⟨0, 1 / 10, 0⟩ ⟨0, -1, 0⟩).teleportValid = true ∧
      (updateTeleportArc ratSqrt (flatMesh 0 130 130) (selectstartRight (State.init (fun _ => 0)))
        ⟨0, 1 / 10, 0⟩ ⟨0, -1, 0⟩).teleportPoint = ⟨0, 0, 0⟩ ∧
      (updateTeleportArc ratSqrt (flatMesh 0 130 130) (selectstartRight (State.init (fun _ => 0)))
        ⟨0, 1 / 10, 0⟩ ⟨0, -1, 0⟩)._arcPoints.length = ARC_STEPS * 3 := by
  have h := updateTeleportArc_buffer ratSqrt (flatMesh 0 130 130)
    (selectstartRight (State.init (fun _ => 0))) ⟨0, 1 / 10, 0⟩ ⟨0, -1, 0⟩ rfl
  have hc := aim_calls ratSqrt (selectstartRight (State.init (fun _ => 0)))._raycaster rfl
    first_segment_length
  obtain ⟨_, a2, a3, a4⟩ := h.2.2.2.2.2.2 0
    ⟨⟨0, 1 / 10, 0⟩, ⟨0, -(499 / 18000), 0⟩, some ⟨0, 0, 0⟩⟩ ⟨0, 0, 0⟩ (by rw [hc]; rfl) rfl
  exact ⟨a2, a3, a4, h.2.2.1⟩


end BosqueCaminante
